import Mathlib

/-!
Verification development for the open-wallet keyring core.

The definitions below are shallow embeddings of the TypeScript sources:

* `packages/crypto/src/hashing.ts` (Keccak-256, EIP-55 checksumming),
* the base58 codec, EVM/Solana account builders and the `Keyring`
  state machine from `packages/keyring/src`,
* the KDF / AEAD layer from `packages/security/src` (external
  `@noble` primitives are modelled by their documented contracts),
* `packages/keyring/src/mnemonic.ts` (external `@scure/bip39`
  modelled by its documented contract).

Bytes are `Nat` values below 256, byte strings are `List Nat`, and
JavaScript strings are Lean `String`s manipulated through their
character lists.
-/

/-- Apostrophe character (ASCII 39), used by derivation-path syntax. -/
def apos : Char := Char.ofNat 39

/-- Apostrophe as a one-character string. -/
def aposStr : String := String.singleton apos

/-- Chain family tag, from `packages/types/src/chain.ts` (`enum ChainFamily`). -/
inductive ChainFamily where
  | EVM
  | SOLANA
deriving DecidableEq

/-- Error codes, from the `enum ErrorCode` of the types package (only the
constructors the keyring core uses are listed; the enumeration in the source
contains no kind named UnsupportedAlgorithm). -/
inductive ErrorCode where
  | UNKNOWN
  | INVALID_INPUT
  | INVALID_MNEMONIC
  | INVALID_PRIVATE_KEY
  | DERIVATION_FAILED
  | ENCRYPTION_FAILED
  | DECRYPTION_FAILED
  | WALLET_LOCKED
  | ACCOUNT_NOT_FOUND
deriving DecidableEq

/-- Result type from the types package: `ok` carries a value, `err` carries
an `ErrorCode` and a human-readable message. -/
inductive Result (α : Type) where
  | ok (value : α)
  | err (code : ErrorCode) (message : String)
deriving DecidableEq

/-- Keccak permutation state: 25 lanes of 64 bits, lane `(x, y)` stored in
field `a(x + 5 * y)`.  Models the state of `keccak_256` from
`@noble/hashes/sha3` (external primitive, implemented here in full per
the Keccak reference so that Ethereum test vectors are checkable). -/
structure KState where
  a0 : Nat
  a1 : Nat
  a2 : Nat
  a3 : Nat
  a4 : Nat
  a5 : Nat
  a6 : Nat
  a7 : Nat
  a8 : Nat
  a9 : Nat
  a10 : Nat
  a11 : Nat
  a12 : Nat
  a13 : Nat
  a14 : Nat
  a15 : Nat
  a16 : Nat
  a17 : Nat
  a18 : Nat
  a19 : Nat
  a20 : Nat
  a21 : Nat
  a22 : Nat
  a23 : Nat
  a24 : Nat
deriving DecidableEq

/-- All-zero Keccak state. -/
def KState.zero : KState :=
  ⟨0, 0, 0, 0, 0, 0, 0, 0, 0, 0, 0, 0, 0, 0, 0, 0, 0, 0, 0, 0, 0, 0, 0, 0, 0⟩

/-- Rotate a 64-bit lane left by `n` (0 ≤ n < 64). -/
def rol64 (x n : Nat) : Nat :=
  ((x <<< n) ||| (x >>> (64 - n))) % (2 ^ 64)

/-- Bitwise complement within 64 bits. -/
def comp64 (x : Nat) : Nat :=
  x ^^^ 0xFFFFFFFFFFFFFFFF

/-- One Keccak-f[1600] round (theta, rho, pi, chi, iota) with round
constant `rc`. -/
def keccakRound (rc : Nat) (s : KState) : KState :=
  let c0 := s.a0 ^^^ s.a5 ^^^ s.a10 ^^^ s.a15 ^^^ s.a20
  let c1 := s.a1 ^^^ s.a6 ^^^ s.a11 ^^^ s.a16 ^^^ s.a21
  let c2 := s.a2 ^^^ s.a7 ^^^ s.a12 ^^^ s.a17 ^^^ s.a22
  let c3 := s.a3 ^^^ s.a8 ^^^ s.a13 ^^^ s.a18 ^^^ s.a23
  let c4 := s.a4 ^^^ s.a9 ^^^ s.a14 ^^^ s.a19 ^^^ s.a24
  let d0 := c4 ^^^ rol64 c1 1
  let d1 := c0 ^^^ rol64 c2 1
  let d2 := c1 ^^^ rol64 c3 1
  let d3 := c2 ^^^ rol64 c4 1
  let d4 := c3 ^^^ rol64 c0 1
  let t0 := s.a0 ^^^ d0
  let t1 := s.a1 ^^^ d1
  let t2 := s.a2 ^^^ d2
  let t3 := s.a3 ^^^ d3
  let t4 := s.a4 ^^^ d4
  let t5 := s.a5 ^^^ d0
  let t6 := s.a6 ^^^ d1
  let t7 := s.a7 ^^^ d2
  let t8 := s.a8 ^^^ d3
  let t9 := s.a9 ^^^ d4
  let t10 := s.a10 ^^^ d0
  let t11 := s.a11 ^^^ d1
  let t12 := s.a12 ^^^ d2
  let t13 := s.a13 ^^^ d3
  let t14 := s.a14 ^^^ d4
  let t15 := s.a15 ^^^ d0
  let t16 := s.a16 ^^^ d1
  let t17 := s.a17 ^^^ d2
  let t18 := s.a18 ^^^ d3
  let t19 := s.a19 ^^^ d4
  let t20 := s.a20 ^^^ d0
  let t21 := s.a21 ^^^ d1
  let t22 := s.a22 ^^^ d2
  let t23 := s.a23 ^^^ d3
  let t24 := s.a24 ^^^ d4
  let b0 := t0
  let b1 := rol64 t6 44
  let b2 := rol64 t12 43
  let b3 := rol64 t18 21
  let b4 := rol64 t24 14
  let b5 := rol64 t3 28
  let b6 := rol64 t9 20
  let b7 := rol64 t10 3
  let b8 := rol64 t16 45
  let b9 := rol64 t22 61
  let b10 := rol64 t1 1
  let b11 := rol64 t7 6
  let b12 := rol64 t13 25
  let b13 := rol64 t19 8
  let b14 := rol64 t20 18
  let b15 := rol64 t4 27
  let b16 := rol64 t5 36
  let b17 := rol64 t11 10
  let b18 := rol64 t17 15
  let b19 := rol64 t23 56
  let b20 := rol64 t2 62
  let b21 := rol64 t8 55
  let b22 := rol64 t14 39
  let b23 := rol64 t15 41
  let b24 := rol64 t21 2
  { a0 := (b0 ^^^ (comp64 b1 &&& b2)) ^^^ rc
    a1 := b1 ^^^ (comp64 b2 &&& b3)
    a2 := b2 ^^^ (comp64 b3 &&& b4)
    a3 := b3 ^^^ (comp64 b4 &&& b0)
    a4 := b4 ^^^ (comp64 b0 &&& b1)
    a5 := b5 ^^^ (comp64 b6 &&& b7)
    a6 := b6 ^^^ (comp64 b7 &&& b8)
    a7 := b7 ^^^ (comp64 b8 &&& b9)
    a8 := b8 ^^^ (comp64 b9 &&& b5)
    a9 := b9 ^^^ (comp64 b5 &&& b6)
    a10 := b10 ^^^ (comp64 b11 &&& b12)
    a11 := b11 ^^^ (comp64 b12 &&& b13)
    a12 := b12 ^^^ (comp64 b13 &&& b14)
    a13 := b13 ^^^ (comp64 b14 &&& b10)
    a14 := b14 ^^^ (comp64 b10 &&& b11)
    a15 := b15 ^^^ (comp64 b16 &&& b17)
    a16 := b16 ^^^ (comp64 b17 &&& b18)
    a17 := b17 ^^^ (comp64 b18 &&& b19)
    a18 := b18 ^^^ (comp64 b19 &&& b15)
    a19 := b19 ^^^ (comp64 b15 &&& b16)
    a20 := b20 ^^^ (comp64 b21 &&& b22)
    a21 := b21 ^^^ (comp64 b22 &&& b23)
    a22 := b22 ^^^ (comp64 b23 &&& b24)
    a23 := b23 ^^^ (comp64 b24 &&& b20)
    a24 := b24 ^^^ (comp64 b20 &&& b21) }

/-- Keccak round constants for the 24 rounds of Keccak-f[1600]. -/
def keccakRC : List Nat :=
  [0x0000000000000001, 0x0000000000008082, 0x800000000000808a, 0x8000000080008000,
   0x000000000000808b, 0x0000000080000001, 0x8000000080008081, 0x8000000000008009,
   0x000000000000008a, 0x0000000000000088, 0x0000000080008009, 0x000000008000000a,
   0x000000008000808b, 0x800000000000008b, 0x8000000000008089, 0x8000000000008003,
   0x8000000000008002, 0x8000000000000080, 0x000000000000800a, 0x800000008000000a,
   0x8000000080008081, 0x8000000000008080, 0x0000000080000001, 0x8000000080008008]

/-- Full Keccak-f[1600] permutation: 24 rounds. -/
def keccakF (s : KState) : KState :=
  keccakRC.foldl (fun st rc => keccakRound rc st) s

/-- Little-endian value of the 8 bytes of `block` starting at offset `8 * j`
(missing bytes read as 0). -/
def laneLE (block : List Nat) (j : Nat) : Nat :=
  ((block.drop (8 * j)).take 8).foldr (fun b acc => b + 256 * acc) 0

/-- XOR a 136-byte rate block into the first 17 lanes of the state. -/
def xorBlock (s : KState) (block : List Nat) : KState :=
  { s with
    a0 := s.a0 ^^^ laneLE block 0
    a1 := s.a1 ^^^ laneLE block 1
    a2 := s.a2 ^^^ laneLE block 2
    a3 := s.a3 ^^^ laneLE block 3
    a4 := s.a4 ^^^ laneLE block 4
    a5 := s.a5 ^^^ laneLE block 5
    a6 := s.a6 ^^^ laneLE block 6
    a7 := s.a7 ^^^ laneLE block 7
    a8 := s.a8 ^^^ laneLE block 8
    a9 := s.a9 ^^^ laneLE block 9
    a10 := s.a10 ^^^ laneLE block 10
    a11 := s.a11 ^^^ laneLE block 11
    a12 := s.a12 ^^^ laneLE block 12
    a13 := s.a13 ^^^ laneLE block 13
    a14 := s.a14 ^^^ laneLE block 14
    a15 := s.a15 ^^^ laneLE block 15
    a16 := s.a16 ^^^ laneLE block 16 }

/-- Eight little-endian bytes of a 64-bit lane. -/
def natLE8 (v : Nat) : List Nat :=
  [v &&& 255, (v >>> 8) &&& 255, (v >>> 16) &&& 255, (v >>> 24) &&& 255,
   (v >>> 32) &&& 255, (v >>> 40) &&& 255, (v >>> 48) &&& 255, (v >>> 56) &&& 255]

/-- Keccak-256 of a byte string (original Keccak multi-rate padding, rate
136 bytes, 32-byte digest), as computed by the `keccak256` wrapper in
`packages/crypto/src/hashing.ts` over `@noble/hashes` `keccak_256`. -/
def keccak256 (msg : List Nat) : List Nat :=
  let q := 136 - msg.length % 136
  let padded :=
    if q = 1 then msg ++ [0x81]
    else msg ++ 0x01 :: (List.replicate (q - 2) 0 ++ [0x80])
  let blocks := padded.length / 136
  let final := (List.range blocks).foldl
    (fun st i => keccakF (xorBlock st (padded.drop (136 * i)))) KState.zero
  natLE8 final.a0 ++ natLE8 final.a1 ++ natLE8 final.a2 ++ natLE8 final.a3

/-- Lowercase hex character of a value below 16. -/
def hexChar (n : Nat) : Char :=
  if n < 10 then Char.ofNat (48 + n) else Char.ofNat (87 + n)

/-- Lowercase hex rendering of a byte string as a character list (the
behaviour of Buffer.toString with hex encoding). -/
def bytesToHexChars (l : List Nat) : List Char :=
  l.foldr (fun b acc => hexChar (b / 16) :: hexChar (b % 16) :: acc) []

/-- Value of a hex digit character as read by JS parseInt with radix 16
(lowercase and uppercase letters; other characters give 0, standing in for
NaN, which compares as not ≥ 8 exactly like 0 in the checksum loop). -/
def hexVal (c : Char) : Nat :=
  if 48 ≤ c.toNat ∧ c.toNat ≤ 57 then c.toNat - 48
  else if 97 ≤ c.toNat ∧ c.toNat ≤ 102 then c.toNat - 87
  else if 65 ≤ c.toNat ∧ c.toNat ≤ 70 then c.toNat - 55
  else 0

/-- Remove the first occurrence of the two-character pattern 0x from a
character list: the behaviour of the JS expression replace with pattern 0x
and empty replacement used in `checksumEvmAddress`. -/
def replace0x : List Char → List Char
  | [] => []
  | [c] => [c]
  | c :: c1 :: rest =>
    if c = '0' then (if c1 = 'x' then rest else c :: replace0x (c1 :: rest))
    else c :: replace0x (c1 :: rest)

/-- Casing loop of `checksumEvmAddress`: the i-th address character is
uppercased iff the i-th hash hex digit is ≥ 8; when the hash is exhausted
the JS indexing yields undefined, parseInt yields NaN and the comparison is
false, so the character is kept as is. -/
def caseFold : List Char → List Char → List Char
  | [], _ => []
  | c :: cs, [] => c :: caseFold cs []
  | c :: cs, h :: hs => (if 8 ≤ hexVal h then c.toUpper else c) :: caseFold cs hs

/-- ASCII byte list of a character list (the TextEncoder encoding of the
ASCII-only strings handled here). -/
def charBytes (l : List Char) : List Nat :=
  l.map Char.toNat

/-- EIP-55 checksummed rendering of an EVM address, from `checksumEvmAddress`
in `packages/crypto/src/hashing.ts`: lowercase the input, strip the first 0x
occurrence, hash the remaining characters with Keccak-256, and uppercase
every character whose corresponding hash hex digit is at least 8. -/
def checksumEvmAddress (address : String) : String :=
  let addr : List Char := replace0x (address.toList.map Char.toLower)
  let hash : List Char := bytesToHexChars (keccak256 (charBytes addr))
  String.mk ('0' :: 'x' :: caseFold addr hash)

/-- Base58 alphabet used by Solana, from `solana-account.ts`. -/
def BASE58_ALPHABET : String :=
  "123456789ABCDEFGHJKLMNPQRSTUVWXYZabcdefghijkmnopqrstuvwxyz"

/-- Big-endian value of a byte string, as obtained in the source by
converting the bytes to hex and reading them with BigInt. -/
def bytesToNat (bytes : List Nat) : Nat :=
  bytes.foldl (fun acc b => acc * 256 + b) 0

/-- Base-58 digit characters of `v`, most significant first: the while loop
of `encodeBase58` that repeatedly divides by 58 and prepends.  `fuel` bounds
the number of iterations; any fuel above log58 of `v` gives the loop's exact
result, and callers pass more than that. -/
def b58Chars : Nat → Nat → List Char
  | 0, _ => []
  | _ + 1, 0 => []
  | fuel + 1, v =>
    b58Chars fuel (v / 58) ++ [(BASE58_ALPHABET.toList.getD (v % 58) ' ')]

/-- Base58 encoding from `encodeBase58`: empty input gives the empty string;
otherwise the byte string is read as a big-endian integer, rendered in base
58, and one leading alphabet-first character is prepended per leading zero
byte. -/
def encodeBase58 (bytes : List Nat) : String :=
  if bytes.length = 0 then ""
  else
    let value := bytesToNat bytes
    let chars := b58Chars (2 * bytes.length + 1) value
    let zeros := (bytes.takeWhile (fun b => b = 0)).map (fun _ => '1')
    String.mk (zeros ++ chars)

/-- Big-endian bytes of `v`, most significant first, as produced by the
source's hex-string detour in `decodeBase58`: the hex rendering of 0 is the
single digit 0, which after odd-length padding becomes one zero byte, so
value 0 yields `[0]` rather than the empty byte string.  `fuel` bounds the
division loop as in `b58Chars`. -/
def natToBytesBE : Nat → Nat → List Nat
  | 0, _ => []
  | _ + 1, 0 => []
  | fuel + 1, v => natToBytesBE fuel (v / 256) ++ [v % 256]

/-- Byte string obtained from a decoded base-58 value in `decodeBase58`
(including the zero-value quirk described at `natToBytesBE`). -/
def valueBytes (strLen v : Nat) : List Nat :=
  if v = 0 then [0] else natToBytesBE (strLen + 1) v

/-- Base58 decoding from `decodeBase58`: empty string gives the empty byte
string; an invalid character throws; otherwise the digits are accumulated
in base 58, converted back to bytes through a hex string, and one leading
zero byte is prepended per leading alphabet-first character. -/
def decodeBase58 (str : String) : Except String (List Nat) := do
  if str.length = 0 then return []
  let digits ← str.toList.mapM (fun c =>
    match BASE58_ALPHABET.toList.indexOf? c with
    | none => Except.error ("Invalid Base58 character: " ++ String.singleton c)
    | some i => Except.ok i)
  let value := digits.foldl (fun acc d => acc * 58 + d) 0
  let bytes := valueBytes str.length value
  let leadingZeros := (str.toList.takeWhile (fun c => c = '1')).length
  if leadingZeros > 0 then
    return List.replicate leadingZeros 0 ++ bytes
  else
    return bytes

/-- Whitespace skipped by JS parseInt before reading digits. -/
def isJsSpace (c : Char) : Bool :=
  c = ' ' ∨ c = '\t' ∨ c = '\n' ∨ c = '\r'

/-- ASCII decimal digit (the only digits JS parseInt reads in radix 10). -/
def isAsciiDigit (c : Char) : Bool :=
  48 ≤ c.toNat ∧ c.toNat ≤ 57

/-- Maximal leading run of ASCII digits of a character list. -/
def leadingDigits : List Char → List Char
  | [] => []
  | c :: cs => if isAsciiDigit c then c :: leadingDigits cs else []

/-- Numeric value of a run of ASCII digits, most significant first. -/
def natOfDigits (l : List Char) : Nat :=
  l.foldl (fun acc c => acc * 10 + (c.toNat - 48)) 0

/-- JS parseInt with radix 10: skip leading whitespace, read an optional
sign, then the maximal run of decimal digits; `none` models NaN (no digit
found).  Trailing characters after the digits are ignored, which is why the
source accepts path components such as 12abc. -/
def jsParseInt10 (s : String) : Option Int :=
  let trimmed := s.toList.dropWhile isJsSpace
  let neg : Bool := trimmed.head? = some '-'
  let body :=
    if trimmed.head? = some '-' ∨ trimmed.head? = some '+' then trimmed.tail else trimmed
  let digits := leadingDigits body
  if digits.length = 0 then none
  else
    let v : Nat := natOfDigits digits
    some (if neg then -(v : Int) else (v : Int))

/-- Derivation path component, from `parseDerivationPath` in
`hd-wallet.ts`. -/
structure DerivationPathComponent where
  index : Nat
  hardened : Bool
deriving DecidableEq

/-- Split a character list at every slash (JS split with a one-character
separator). -/
def splitSlash (l : List Char) : List (List Char) :=
  l.foldr
    (fun c acc =>
      match acc with
      | [] => [[c]]
      | cur :: rest => if c = '/' then [] :: (cur :: rest) else (c :: cur) :: rest)
    [[]]

/-- Parse one path component as `parseDerivationPath` does: detect a single
trailing apostrophe, strip it, and read the remainder with JS parseInt in
radix 10; NaN or a negative value throws. -/
def parseComponent (part : List Char) : Except String DerivationPathComponent :=
  let hardened := part.getLast? = some apos
  let indexStr := if hardened then part.dropLast else part
  match jsParseInt10 (String.mk indexStr) with
  | none => Except.error ("Invalid path component: " ++ String.mk part)
  | some i =>
    if i < 0 then Except.error ("Invalid path component: " ++ String.mk part)
    else Except.ok ⟨i.toNat, hardened⟩

/-- Traversal of the split components, propagating the first throw: the
behaviour of the Array map callback in `parseDerivationPath`. -/
def parseComponents : List (List Char) → Except String (List DerivationPathComponent)
  | [] => Except.ok []
  | p :: ps =>
    match parseComponent p with
    | Except.error e => Except.error e
    | Except.ok c =>
      match parseComponents ps with
      | Except.error e => Except.error e
      | Except.ok cs => Except.ok (c :: cs)

/-- Derivation-path parser from `parseDerivationPath` in `hd-wallet.ts`:
requires the m/ head, splits the rest at slashes and parses every
component; a throw is modelled as `Except.error`. -/
def parseDerivationPath (path : String) : Except String (List DerivationPathComponent) :=
  if path.toList.take 2 = ['m', '/'] then
    parseComponents (splitSlash (path.toList.drop 2))
  else Except.error "Derivation path must start with m/"

/-- Well-formedness of one path component in the words of the spec: a
non-negative integer, optionally suffixed with an apostrophe for hardened
derivation. -/
def specComponentOk (part : List Char) : Bool :=
  let core := if part.getLast? = some apos then part.dropLast else part
  core.length ≠ 0 ∧ core.all isAsciiDigit

/-- Well-formedness of a whole derivation path in the words of the spec:
the m/ head followed by slash-separated well-formed components. -/
def specPathOk (path : String) : Bool :=
  path.toList.take 2 = ['m', '/'] ∧ (splitSlash (path.toList.drop 2)).all specComponentOk

/-- Failure raised by `mnemonicToSeed` (the source throws an Error with
message Invalid mnemonic). -/
inductive MnemonicError where
  | invalidMnemonic
deriving DecidableEq

/-- Symbolic PBKDF2-HMAC-SHA512 output.  Models the seed returned by
`@scure/bip39` mnemonicToSeedSync (external primitive): the record keeps the
password bytes, salt bytes, round count and output length that the
documented standard feeds to PBKDF2-HMAC-SHA512. -/
structure Pbkdf2Sha512 where
  password : List Nat
  salt : List Nat
  rounds : Nat
  dkLen : Nat
deriving DecidableEq

/-- Number of bytes of a symbolic PBKDF2-HMAC-SHA512 output: the documented
output length. -/
def Pbkdf2Sha512.byteLength (s : Pbkdf2Sha512) : Nat :=
  s.dkLen

/-- Modelled from the spec: `@scure/bip39` mnemonicToSeedSync (external),
the standard BIP-39 stretch — PBKDF2-HMAC-SHA512 over the phrase with salt
mnemonic++passphrase, 2048 rounds, 64-byte output. -/
def bip39MnemonicToSeedSync (mnemonic passphrase : String) : Pbkdf2Sha512 :=
  ⟨charBytes mnemonic.toList, charBytes ("mnemonic" ++ passphrase).toList, 2048, 64⟩

/-- Mnemonic-to-seed conversion from `mnemonic.ts` `mnemonicToSeed`: throws
Invalid mnemonic when validation fails, otherwise delegates to the bip39
stretch.  The external `@scure/bip39` validateMnemonic is abstracted as the
parameter `v`. -/
def mnemonicToSeed (v : String → Bool) (mnemonic : String) (passphrase : String := "") :
    Except MnemonicError Pbkdf2Sha512 :=
  if ¬ v mnemonic then Except.error MnemonicError.invalidMnemonic
  else Except.ok (bip39MnemonicToSeedSync mnemonic passphrase)

/-- KDF parameter union from `packages/security` (Pbkdf2Params and
ScryptParams). -/
inductive KdfParams where
  | pbkdf2 (iterations : Nat) (salt : List Nat) (keyLength : Nat)
  | scrypt (N r p : Nat) (salt : List Nat) (keyLength : Nat)
deriving DecidableEq

/-- Symbolic derived key.  Models the byte outputs of the external
`@noble/hashes` pbkdf2 and scrypt: a key is identified by the password and
parameters it was stretched from (the ideal-KDF abstraction — distinct
inputs give distinct keys). -/
inductive DerivedKey where
  | pbkdf2Key (password : String) (salt : List Nat) (iterations keyLength : Nat)
  | scryptKey (password : String) (salt : List Nat) (N r p keyLength : Nat)
deriving DecidableEq

/-- Dispatch of `deriveKey` in the security package: pbkdf2 parameters go to
PBKDF2, scrypt parameters to Scrypt. -/
def deriveKey (password : String) : KdfParams → DerivedKey
  | KdfParams.pbkdf2 iterations salt keyLength =>
    DerivedKey.pbkdf2Key password salt iterations keyLength
  | KdfParams.scrypt N r p salt keyLength =>
    DerivedKey.scryptKey password salt N r p keyLength

/-- EVM account with key, from `evm-account.ts` `EvmAccountWithKey`. -/
structure EvmAccountWithKey where
  id : String
  name : String
  address : String
  chainFamily : ChainFamily
  derivationPath : String
  index : Int
  publicKey : String
  privateKey : String
  createdAt : Nat
deriving DecidableEq

/-- Solana account with key, from `solana-account.ts`
`SolanaAccountWithKey`. -/
structure SolanaAccountWithKey where
  id : String
  name : String
  address : String
  chainFamily : ChainFamily
  derivationPath : String
  index : Int
  publicKey : String
  privateKey : String
  secretSeed : String
  createdAt : Nat
deriving DecidableEq

/-- Union of account shapes, from `AccountWithKey` in `hd-wallet.ts`
(keyring part of the source). -/
inductive AccountWithKey where
  | evm (a : EvmAccountWithKey)
  | solana (a : SolanaAccountWithKey)
deriving DecidableEq

/-- Key material of an account, as read by `getPrivateKey`. -/
def AccountWithKey.privateKey : AccountWithKey → String
  | AccountWithKey.evm a => a.privateKey
  | AccountWithKey.solana a => a.privateKey

/-- Serialized keyring snapshot, from the `KeyringData` interface. -/
structure KeyringData where
  mnemonic : String
  evmAccounts : List EvmAccountWithKey
  solanaAccounts : List SolanaAccountWithKey
  nextEvmIndex : Nat
  nextSolanaIndex : Nat
deriving DecidableEq

/-- Symbolic AES-256-GCM sealed box.  Models the ciphertext-with-tag of the
external `@noble/ciphers` gcm: the ideal-AEAD abstraction records the
sealing key and payload, and an `intact` flag that is true for honestly
produced ciphertexts; any modification of the stored bytes is modelled by
`intact := false`, which is what the authentication tag detects. -/
structure GcmSealed where
  key : DerivedKey
  payload : KeyringData
  intact : Bool
deriving DecidableEq

/-- Encrypted envelope, from `EncryptedData` in the security package
(algorithm tag, IV, ciphertext-with-tag; base64 transport is modelled as
the identity). -/
structure EncryptedData where
  algorithm : String
  iv : List Nat
  ciphertext : GcmSealed
deriving DecidableEq

/-- Encryption path `encryptJson` (JSON serialization composed with AES-256-GCM
`encrypt`); the fresh random nonce is the `iv` argument. -/
def encryptJson (data : KeyringData) (key : DerivedKey) (iv : List Nat) : EncryptedData :=
  ⟨"aes-256-gcm", iv, ⟨key, data, true⟩⟩

/-- Decryption path `decryptJson` (AES-256-GCM `decrypt` composed with JSON
parsing): rejects foreign algorithm tags, and the GCM open fails unless the
ciphertext is intact and was sealed under the same key. -/
def decryptJson (ed : EncryptedData) (key : DerivedKey) : Except String KeyringData :=
  if ed.algorithm ≠ "aes-256-gcm" then
    Except.error ("Unsupported encryption algorithm: " ++ ed.algorithm)
  else if ed.ciphertext.intact ∧ ed.ciphertext.key = key then
    Except.ok ed.ciphertext.payload
  else
    Except.error "authentication failed"

/-- KDF parameter block of a stored keyring, from the record literal built
by `Keyring.export` and read back by `Keyring.import` (salt base64 transport
modelled as the identity). -/
structure KdfBlock where
  algorithm : String
  iterations : Nat
  salt : List Nat
  keyLength : Nat
deriving DecidableEq

/-- Stored keyring envelope, from the `StoredKeyring` interface. -/
structure StoredKeyring where
  version : Nat
  kdf : KdfBlock
  encrypted : EncryptedData
deriving DecidableEq

/-- HD key node, from `@scure/bip32` HDKey as used by the source: only the
private-key bytes are consumed by the account builders. -/
structure HDKeyM where
  privateKey : Option (List Nat)
deriving DecidableEq

/-- HD wallet, from the `HDWallet` class: wraps the master key derived from
the mnemonic (the seed source is kept, since every derivation below is a
deterministic function of mnemonic and path). -/
structure HDWalletM where
  mnemonic : String
deriving DecidableEq

/-- Modelled from the spec: BIP-32 child-key derivation of `@scure/bip32`
(external) — an unspecified deterministic function of the seed source and
the path, producing 32 private-key bytes.  No claim depends on the actual
byte values, only on determinism and length. -/
def symDerive (mnemonic path : String) : List Nat :=
  (List.range 32).map (fun i => (mnemonic.length + 7 * path.length + i) % 256)

/-- Construction `HDWallet.fromMnemonic`: converts the mnemonic to a seed
(throwing Invalid mnemonic when `v` rejects it, as `mnemonicToSeed` does)
and wraps the master key. -/
def HDWalletM.fromMnemonic (v : String → Bool) (mnemonic : String) : Except String HDWalletM :=
  if ¬ v mnemonic then Except.error "Invalid mnemonic"
  else Except.ok ⟨mnemonic⟩

/-- Derivation `HDWallet.derivePath`. -/
def HDWalletM.derivePath (w : HDWalletM) (path : String) : HDKeyM :=
  ⟨some (symDerive w.mnemonic path)⟩

/-- EVM derivation path for an index, shared by `HDWallet.deriveEvmKey` and
`getDerivationPath` in the types package. -/
def pathEvm (index : Nat) : String :=
  "m/44" ++ aposStr ++ "/60" ++ aposStr ++ "/0" ++ aposStr ++ "/0/" ++ toString index

/-- Solana derivation path for an index, shared by `HDWallet.deriveSolanaKey`
and `getDerivationPath` in the types package. -/
def pathSolana (index : Nat) : String :=
  "m/44" ++ aposStr ++ "/501" ++ aposStr ++ "/" ++ toString index ++ aposStr ++ "/0" ++ aposStr

/-- Derivation `HDWallet.deriveEvmKey`. -/
def HDWalletM.deriveEvmKey (w : HDWalletM) (index : Nat) : HDKeyM :=
  w.derivePath (pathEvm index)

/-- Derivation `HDWallet.deriveSolanaKey`. -/
def HDWalletM.deriveSolanaKey (w : HDWalletM) (index : Nat) : HDKeyM :=
  w.derivePath (pathSolana index)

/-- Path selection `getDerivationPath` from the types package. -/
def getDerivationPath : ChainFamily → Nat → String
  | ChainFamily.EVM, index => pathEvm index
  | ChainFamily.SOLANA, index => pathSolana index

/-- Modelled from the spec: secp256k1 public-key derivation of
`@noble/curves` (external) — an unspecified deterministic function of the
private key returning the 65-byte uncompressed point.  No claim depends on
the actual byte values. -/
def secp256k1GetPublicKey (priv : List Nat) : List Nat :=
  4 :: (priv ++ priv.map (fun b => (b + 101) % 256))

/-- Modelled from the spec: ed25519 public-key derivation of
`@noble/curves` (external) — an unspecified deterministic function of the
32-byte seed returning the 32-byte public key. -/
def ed25519GetPublicKey (seed : List Nat) : List Nat :=
  seed.map (fun b => (b + 113) % 256)

/-- Address pipeline `publicKeyToEvmAddress` from `evm-account.ts`: strip
the uncompressed prefix byte when present, Keccak-256 the remaining bytes,
keep the last 20 bytes, hex-encode with the 0x head and checksum. -/
def publicKeyToEvmAddress (publicKey : List Nat) : String :=
  let pubKeyBytes := if publicKey.length = 65 then publicKey.drop 1 else publicKey
  let hash := keccak256 pubKeyBytes
  let addressBytes := hash.drop (hash.length - 20)
  let address := String.mk ('0' :: 'x' :: bytesToHexChars addressBytes)
  checksumEvmAddress address

/-- Modelled from the spec: `randomUuid` draws from the secure RNG
(external); modelled as a constant since no claim depends on its value. -/
def modelUuid : String := "00000000-0000-4000-8000-000000000000"

/-- Modelled from the spec: Date.now timestamps (external clock); modelled
as a constant since no claim depends on its value. -/
def modelNow : Nat := 0

/-- Account builder `createEvmAccountFromHDKey`: requires private-key bytes
on the node (throwing otherwise), derives the public key and checksummed
address, and fills the account record. -/
def createEvmAccountFromHDKey (hdKey : HDKeyM) (index : Nat) (name : Option String) :
    Except String EvmAccountWithKey :=
  match hdKey.privateKey with
  | none => Except.error "HD key does not contain private key"
  | some priv =>
    let publicKey := secp256k1GetPublicKey priv
    let address := publicKeyToEvmAddress publicKey
    Except.ok
      { id := modelUuid
        name := name.getD ("EVM Account " ++ toString (index + 1))
        address := address
        chainFamily := ChainFamily.EVM
        derivationPath := getDerivationPath ChainFamily.EVM index
        index := (index : Int)
        publicKey := String.mk (bytesToHexChars publicKey)
        privateKey := String.mk (bytesToHexChars priv)
        createdAt := modelNow }

/-- Account builder `createSolanaAccountFromHDKey`: the HD private-key bytes
are the ed25519 seed; the address is the base58 public key, the private-key
field the base58 seed-then-public 64 bytes, the secret seed the base58
seed. -/
def createSolanaAccountFromHDKey (hdKey : HDKeyM) (index : Nat) (name : Option String) :
    Except String SolanaAccountWithKey :=
  match hdKey.privateKey with
  | none => Except.error "HD key does not contain private key"
  | some seed =>
    let publicKey := ed25519GetPublicKey seed
    let address := encodeBase58 publicKey
    let fullPrivateKey := seed ++ publicKey
    Except.ok
      { id := modelUuid
        name := name.getD ("Solana Account " ++ toString (index + 1))
        address := address
        chainFamily := ChainFamily.SOLANA
        derivationPath := getDerivationPath ChainFamily.SOLANA index
        index := (index : Int)
        publicKey := encodeBase58 publicKey
        privateKey := encodeBase58 fullPrivateKey
        secretSeed := encodeBase58 seed
        createdAt := modelNow }

/-- JS Map.set semantics on an insertion-ordered association list: update in
place when the key exists, append otherwise. -/
def mapSet {α : Type} (m : List (String × α)) (k : String) (v : α) : List (String × α) :=
  if m.any (fun p => p.1 = k) then m.map (fun p => if p.1 = k then (k, v) else p)
  else m ++ [(k, v)]

/-- JS Map.get semantics. -/
def mapGet {α : Type} (m : List (String × α)) (k : String) : Option α :=
  (m.find? (fun p => p.1 = k)).map (fun p => p.2)

/-- JS Map values in insertion order. -/
def mapValues {α : Type} (m : List (String × α)) : List α :=
  m.map (fun p => p.2)

/-- JS toLowerCase on the ASCII strings handled here. -/
def jsToLower (s : String) : String :=
  String.mk (s.toList.map Char.toLower)

/-- Runtime keyring state, from the private fields of the `Keyring` class. -/
structure Keyring where
  mnemonic : Option String := none
  evmAccounts : List (String × EvmAccountWithKey) := []
  solanaAccounts : List (String × SolanaAccountWithKey) := []
  nextEvmIndex : Nat := 0
  nextSolanaIndex : Nat := 0
  hdWallet : Option HDWalletM := none
deriving DecidableEq

/-- Fresh keyring, from `createKeyring`. -/
def Keyring.new : Keyring := {}

/-- Lock-state query `Keyring.isUnlocked`. -/
def Keyring.isUnlocked (s : Keyring) : Bool :=
  s.mnemonic.isSome

/-- Private helper `Keyring.unlock`: adopt the mnemonic and build the HD
wallet (the wallet construction throws on an invalid mnemonic; all callers
validate or generate the phrase first). -/
def Keyring.unlock (v : String → Bool) (s : Keyring) (m : String) : Except String Keyring :=
  match HDWalletM.fromMnemonic v m with
  | Except.error e => Except.error e
  | Except.ok w => Except.ok { s with mnemonic := some m, hdWallet := some w }

/-- Operation initialize of the Keyring class: unlock with a freshly generated
mnemonic (the generated phrase, drawn from the external RNG, is the
`generated` argument) and return it. -/
def Keyring.initializeOp (v : String → Bool) (s : Keyring) (generated : String) :
    Except String (String × Keyring) :=
  match s.unlock v generated with
  | Except.error e => Except.error e
  | Except.ok s1 => Except.ok (generated, s1)

/-- Operation `Keyring.restore`: validate then adopt an existing
mnemonic. -/
def Keyring.restore (v : String → Bool) (s : Keyring) (m : String) :
    Except String (Result Unit × Keyring) :=
  if ¬ v m then Except.ok (Result.err ErrorCode.INVALID_MNEMONIC "Invalid mnemonic phrase", s)
  else
    match s.unlock v m with
    | Except.error e => Except.error e
    | Except.ok s1 => Except.ok (Result.ok (), s1)

/-- Operation `Keyring.lock`: drop the mnemonic and HD wallet and blank the
private-key fields on every cached account (the Solana secret seed too);
addresses and metadata stay. -/
def Keyring.lock (s : Keyring) : Keyring :=
  { s with
    mnemonic := none
    hdWallet := none
    evmAccounts := s.evmAccounts.map (fun p => (p.1, { p.2 with privateKey := "" }))
    solanaAccounts := s.solanaAccounts.map
      (fun p => (p.1, { p.2 with privateKey := "", secretSeed := "" })) }

/-- Operation `Keyring.getMnemonic`. -/
def Keyring.getMnemonic (s : Keyring) : Result String :=
  match s.mnemonic with
  | none => Result.err ErrorCode.WALLET_LOCKED "Keyring is locked"
  | some m => Result.ok m

/-- Operation `Keyring.createAccount`: locked keyrings fail; otherwise the
next index of the requested family is derived, the account is built and
inserted under its normalized address, and the family counter advances. -/
def Keyring.createAccount (s : Keyring) (chainFamily : ChainFamily) (name : Option String) :
    Except String (Result AccountWithKey × Keyring) :=
  match s.hdWallet with
  | none => Except.ok (Result.err ErrorCode.WALLET_LOCKED "Keyring is locked", s)
  | some w =>
    match chainFamily with
    | ChainFamily.EVM =>
      match createEvmAccountFromHDKey (w.deriveEvmKey s.nextEvmIndex) s.nextEvmIndex name with
      | Except.error e => Except.error e
      | Except.ok account =>
        Except.ok (Result.ok (AccountWithKey.evm account),
          { s with
            evmAccounts := mapSet s.evmAccounts (jsToLower account.address) account
            nextEvmIndex := s.nextEvmIndex + 1 })
    | ChainFamily.SOLANA =>
      match createSolanaAccountFromHDKey (w.deriveSolanaKey s.nextSolanaIndex) s.nextSolanaIndex name with
      | Except.error e => Except.error e
      | Except.ok account =>
        Except.ok (Result.ok (AccountWithKey.solana account),
          { s with
            solanaAccounts := mapSet s.solanaAccounts account.address account
            nextSolanaIndex := s.nextSolanaIndex + 1 })

/-- Lookup `Keyring.getAccounts`: EVM values then Solana values, in
insertion order. -/
def Keyring.getAccounts (s : Keyring) : List AccountWithKey :=
  (mapValues s.evmAccounts).map AccountWithKey.evm
    ++ (mapValues s.solanaAccounts).map AccountWithKey.solana

/-- Lookup `Keyring.getAccount`: case-insensitive for EVM, exact for
Solana. -/
def Keyring.getAccount (s : Keyring) (address : String) : Option AccountWithKey :=
  match mapGet s.evmAccounts (jsToLower address) with
  | some a => some (AccountWithKey.evm a)
  | none =>
    match mapGet s.solanaAccounts address with
    | some a => some (AccountWithKey.solana a)
    | none => none

/-- Operation `Keyring.getPrivateKey`: unknown address fails with
ACCOUNT_NOT_FOUND; a blanked key field (falsy empty string) fails with
WALLET_LOCKED; otherwise the key material is returned. -/
def Keyring.getPrivateKey (s : Keyring) (address : String) : Result String :=
  match s.getAccount address with
  | none => Result.err ErrorCode.ACCOUNT_NOT_FOUND ("Account not found: " ++ address)
  | some account =>
    if account.privateKey = "" then Result.err ErrorCode.WALLET_LOCKED "Keyring is locked"
    else Result.ok account.privateKey

/-- Operation `Keyring.export`: locked keyrings fail; otherwise the full
snapshot is serialized and sealed under a key derived with the default
PBKDF2 parameters and a fresh salt; the fresh random salt and GCM nonce
drawn inside are the `salt` and `iv` arguments. -/
def Keyring.exportOp (s : Keyring) (password : String) (salt iv : List Nat) :
    Result StoredKeyring :=
  match s.mnemonic with
  | none => Result.err ErrorCode.WALLET_LOCKED "Keyring is locked"
  | some m =>
    let data : KeyringData :=
      ⟨m, mapValues s.evmAccounts, mapValues s.solanaAccounts, s.nextEvmIndex, s.nextSolanaIndex⟩
    let key := deriveKey password (KdfParams.pbkdf2 600000 salt 32)
    Result.ok
      { version := 1
        kdf := ⟨"pbkdf2", 600000, salt, 32⟩
        encrypted := encryptJson data key iv }

/-- Operation `Keyring.import`: rejects every KDF tag other than pbkdf2 with
INVALID_INPUT; derives the key from the stored block and opens the envelope;
every throw inside the try block (GCM failure, or the wallet rebuild when
the embedded mnemonic does not validate) is caught and surfaced as
DECRYPTION_FAILED.  Mutations happen in source order: the mnemonic field is
assigned before the wallet rebuild, so a rebuild failure leaves it
overwritten while everything else is untouched. -/
def Keyring.importOp (v : String → Bool) (s : Keyring) (stored : StoredKeyring)
    (password : String) : Result Unit × Keyring :=
  if stored.kdf.algorithm ≠ "pbkdf2" then
    (Result.err ErrorCode.INVALID_INPUT ("Unsupported KDF algorithm: " ++ stored.kdf.algorithm), s)
  else
    let key := deriveKey password
      (KdfParams.pbkdf2 stored.kdf.iterations stored.kdf.salt stored.kdf.keyLength)
    match decryptJson stored.encrypted key with
    | Except.error _ =>
      (Result.err ErrorCode.DECRYPTION_FAILED "Failed to decrypt keyring. Wrong password?", s)
    | Except.ok data =>
      let s1 := { s with mnemonic := some data.mnemonic }
      match HDWalletM.fromMnemonic v data.mnemonic with
      | Except.error _ =>
        (Result.err ErrorCode.DECRYPTION_FAILED "Failed to decrypt keyring. Wrong password?", s1)
      | Except.ok w =>
        (Result.ok (),
          { s1 with
            hdWallet := some w
            nextEvmIndex := data.nextEvmIndex
            nextSolanaIndex := data.nextSolanaIndex
            evmAccounts := data.evmAccounts.foldl
              (fun m a => mapSet m (jsToLower a.address) a) []
            solanaAccounts := data.solanaAccounts.foldl
              (fun m a => mapSet m a.address a) [] })

/-- Operation `Keyring.destroy`: lock, then clear both maps and reset both
counters. -/
def Keyring.destroy (s : Keyring) : Keyring :=
  { s.lock with
    evmAccounts := []
    solanaAccounts := []
    nextEvmIndex := 0
    nextSolanaIndex := 0 }

/-- Observable snapshot of a keyring: exactly the data `KeyringData`
serializes, plus the lock indicator carried by the mnemonic option. -/
structure Snapshot where
  mnemonic : Option String
  evm : List EvmAccountWithKey
  sol : List SolanaAccountWithKey
  nextEvm : Nat
  nextSol : Nat
deriving DecidableEq

/-- Snapshot of a keyring state. -/
def Keyring.snapshot (s : Keyring) : Snapshot :=
  ⟨s.mnemonic, mapValues s.evmAccounts, mapValues s.solanaAccounts,
    s.nextEvmIndex, s.nextSolanaIndex⟩

/-- Value extraction from a `Result` with a default (helper for closed
statements). -/
def Result.okD {α : Type} (r : Result α) (d : α) : α :=
  match r with
  | Result.ok a => a
  | Result.err _ _ => d

/-- Success test on a `Result`. -/
def Result.isOk {α : Type} : Result α → Bool
  | Result.ok _ => true
  | Result.err _ _ => false

/-- CLAIM C3.  The spec claims `decodeBase58 (encodeBase58 bytes) = bytes`
for every byte string of length 0 through 128, in particular for the
all-zero ones.  The code disagrees on every all-zero input: the encoder
renders the zero value as no digits plus one leading-zero marker, but the
decoder turns the zero value back into one explicit zero byte through its
hex detour before prepending the marker zeros, so a single zero byte
round-trips to two zero bytes. -/
theorem base58_zero_roundtrip_bug :
    encodeBase58 [0] = "1" ∧
    decodeBase58 (encodeBase58 [0]) = Except.ok [0, 0] ∧
    (decodeBase58 (encodeBase58 [0])).toOption ≠ some [0] := by
  refine ⟨rfl, rfl, by decide⟩

/-- CLAIM C7.  `mnemonicToSeed` fails with the invalid-mnemonic error
exactly when validation rejects the phrase; on a validated phrase it
returns the documented BIP-39 stretch — PBKDF2-HMAC-SHA512 over the phrase
with salt mnemonic++passphrase, 2048 rounds — whose output length is 64
bytes.  The external BIP-39 validator is the parameter `v`. -/
theorem toSeed_invalid_iff (v : String → Bool) (m p : String) :
    (mnemonicToSeed v m p = Except.error MnemonicError.invalidMnemonic ↔ v m = false) ∧
    (v m = true →
      mnemonicToSeed v m p =
        Except.ok ⟨charBytes m.toList, charBytes ("mnemonic" ++ p).toList, 2048, 64⟩ ∧
      ∀ seed, mnemonicToSeed v m p = Except.ok seed → seed.byteLength = 64) := by
  constructor
  · by_cases h : v m <;> simp [mnemonicToSeed, h]
  · intro h
    refine ⟨by simp [mnemonicToSeed, h, bip39MnemonicToSeedSync], ?_⟩
    intro seed hseed
    simp [mnemonicToSeed, h, bip39MnemonicToSeedSync] at hseed
    simp [← hseed, Pbkdf2Sha512.byteLength]

/-- Witness for C7 at a concrete validator, phrase and passphrase. -/
theorem toSeed_invalid_iff_witness :
    mnemonicToSeed (fun s => s = "legal winner thank year wave") "legal winner thank year wave" "tre" =
      Except.ok ⟨charBytes ("legal winner thank year wave").toList,
        charBytes ("mnemonic" ++ "tre").toList, 2048, 64⟩ :=
  ((toSeed_invalid_iff (fun s => s = "legal winner thank year wave")
    "legal winner thank year wave" "tre").2 (by decide)).1

/-- CLAIM C5 (amended).  For a stored blob whose KDF tag is neither pbkdf2
nor scrypt, `Keyring.import` fails with the INVALID_INPUT error kind (the
ErrorCode enumeration of the source has no UnsupportedAlgorithm member) and
leaves the keyring state untouched.  In fact the guard in the source
rejects everything other than pbkdf2. -/
theorem import_unknown_kdf (v : String → Bool) (s : Keyring) (stored : StoredKeyring)
    (password : String)
    (h1 : stored.kdf.algorithm ≠ "pbkdf2") (h2 : stored.kdf.algorithm ≠ "scrypt") :
    Keyring.importOp v s stored password =
      (Result.err ErrorCode.INVALID_INPUT
        ("Unsupported KDF algorithm: " ++ stored.kdf.algorithm), s) := by
  simp [Keyring.importOp, h1]

/-- Counterexample for C5 as stated: at a concrete blob carrying an
unrecognized KDF tag, the returned error kind is INVALID_INPUT — not an
UnsupportedAlgorithm kind, which the ErrorCode enumeration of the source
does not even contain. -/
theorem import_unknown_kdf_counterexample :
    (Keyring.importOp (fun _ => true) Keyring.new
      ⟨1, ⟨"caesar", 1000, [], 32⟩,
        ⟨"aes-256-gcm", [], ⟨DerivedKey.pbkdf2Key "p" [] 1000 32, ⟨"m", [], [], 0, 0⟩, true⟩⟩⟩
      "pw").1 = Result.err ErrorCode.INVALID_INPUT "Unsupported KDF algorithm: caesar" := by
  decide

/-- Witness for C5 at a concrete blob with a different unrecognized tag. -/
theorem import_unknown_kdf_witness :
    Keyring.importOp (fun _ => true) Keyring.new
      ⟨1, ⟨"rot13", 9, [5], 32⟩,
        ⟨"aes-256-gcm", [], ⟨DerivedKey.pbkdf2Key "q" [5] 9 32, ⟨"m", [], [], 0, 0⟩, true⟩⟩⟩
      "pw" =
      (Result.err ErrorCode.INVALID_INPUT "Unsupported KDF algorithm: rot13", Keyring.new) :=
  import_unknown_kdf (fun _ => true) Keyring.new
    ⟨1, ⟨"rot13", 9, [5], 32⟩,
      ⟨"aes-256-gcm", [], ⟨DerivedKey.pbkdf2Key "q" [5] 9 32, ⟨"m", [], [], 0, 0⟩, true⟩⟩⟩
    "pw" (by decide) (by decide)

/-- CLAIM C4.  Import fails closed: whenever AEAD authentication fails —
the stored ciphertext is no longer intact (any bit flip), or the key
derived from the presented password differs from the sealing key — import
returns exactly the DECRYPTION_FAILED error and the keyring state is
returned unchanged; and importing an exported blob with any password other
than the export password fails the same way, for any target keyring.  GCM
authenticity and KDF injectivity are the ideal-primitive contracts of the
external `@noble` libraries. -/
theorem import_fails_closed :
    (∀ (v : String → Bool) (s : Keyring) (stored : StoredKeyring) (password : String),
      stored.kdf.algorithm = "pbkdf2" →
      (stored.encrypted.ciphertext.intact = false ∨
        stored.encrypted.ciphertext.key ≠
          deriveKey password
            (KdfParams.pbkdf2 stored.kdf.iterations stored.kdf.salt stored.kdf.keyLength)) →
      Keyring.importOp v s stored password =
        (Result.err ErrorCode.DECRYPTION_FAILED "Failed to decrypt keyring. Wrong password?", s)) ∧
    (∀ (v : String → Bool) (s t : Keyring) (stored : StoredKeyring) (m p1 p2 : String)
        (salt iv : List Nat),
      s.mnemonic = some m → p1 ≠ p2 → s.exportOp p1 salt iv = Result.ok stored →
      Keyring.importOp v t stored p2 =
        (Result.err ErrorCode.DECRYPTION_FAILED "Failed to decrypt keyring. Wrong password?", t)) := by
  constructor
  · intro v s stored password halg hfail
    by_cases hgcm : stored.encrypted.algorithm = "aes-256-gcm"
    · rcases hfail with hf | hf <;>
        simp [Keyring.importOp, halg, decryptJson, hgcm, hf]
    · simp [Keyring.importOp, halg, decryptJson, hgcm]
  · intro v s t stored m p1 p2 salt iv hm hp hexp
    rw [Keyring.exportOp, hm] at hexp
    rcases hexp
    simp [Keyring.importOp, decryptJson, encryptJson, deriveKey, hp]

/-- Witness for C4: a concrete tampered blob (intact flag cleared) and a
concrete wrong-password import of a concrete export. -/
theorem import_fails_closed_witness :
    Keyring.importOp (fun _ => true) Keyring.new
      ⟨1, ⟨"pbkdf2", 600000, [1], 32⟩,
        ⟨"aes-256-gcm", [2],
          ⟨DerivedKey.pbkdf2Key "pw" [1] 600000 32, ⟨"m", [], [], 0, 0⟩, false⟩⟩⟩
      "pw" =
      (Result.err ErrorCode.DECRYPTION_FAILED "Failed to decrypt keyring. Wrong password?",
        Keyring.new) ∧
    Keyring.importOp (fun _ => true) Keyring.new
      ((Keyring.exportOp ⟨some "mn", [], [], 0, 0, none⟩ "a" [3] [4]).okD
        ⟨0, ⟨"", 0, [], 0⟩, ⟨"", [], ⟨DerivedKey.pbkdf2Key "" [] 0 0, ⟨"", [], [], 0, 0⟩, false⟩⟩⟩)
      "b" =
      (Result.err ErrorCode.DECRYPTION_FAILED "Failed to decrypt keyring. Wrong password?",
        Keyring.new) :=
  ⟨import_fails_closed.1 (fun _ => true) Keyring.new
      ⟨1, ⟨"pbkdf2", 600000, [1], 32⟩,
        ⟨"aes-256-gcm", [2],
          ⟨DerivedKey.pbkdf2Key "pw" [1] 600000 32, ⟨"m", [], [], 0, 0⟩, false⟩⟩⟩
      "pw" (by decide) (Or.inl rfl),
    import_fails_closed.2 (fun _ => true) ⟨some "mn", [], [], 0, 0, none⟩ Keyring.new
      ((Keyring.exportOp ⟨some "mn", [], [], 0, 0, none⟩ "a" [3] [4]).okD
        ⟨0, ⟨"", 0, [], 0⟩, ⟨"", [], ⟨DerivedKey.pbkdf2Key "" [] 0 0, ⟨"", [], [], 0, 0⟩, false⟩⟩⟩)
      "mn" "a" "b" [3] [4] rfl (by decide) rfl⟩

/-- Blanked EVM account: only the private-key field is cleared, every other
field is kept. -/
def blankEvm (a : EvmAccountWithKey) : EvmAccountWithKey :=
  { a with privateKey := "" }

/-- Blanked Solana account: only the private-key and secret-seed fields are
cleared, every other field is kept. -/
def blankSolana (a : SolanaAccountWithKey) : SolanaAccountWithKey :=
  { a with privateKey := "", secretSeed := "" }

/-- Blanking on the account union. -/
def blankAccount : AccountWithKey → AccountWithKey
  | AccountWithKey.evm a => AccountWithKey.evm (blankEvm a)
  | AccountWithKey.solana a => AccountWithKey.solana (blankSolana a)

/-- Lookup commutes with a value-only rewrite of the map. -/
theorem mapGet_mapVal {α β : Type} (f : α → β) (m : List (String × α)) (k : String) :
    mapGet (m.map (fun p => (p.1, f p.2))) k = (mapGet m k).map f := by
  induction m with
  | nil => rfl
  | cons p rest ih =>
    by_cases h : p.1 = k <;> simp [mapGet, List.find?_cons, h] at ih ⊢ <;> exact ih

/-- Locking rewrites every stored account by blanking, so lookups after a
lock return the blanked account. -/
theorem getAccount_lock (s : Keyring) (address : String) :
    (s.lock).getAccount address = (s.getAccount address).map blankAccount := by
  show (Keyring.getAccount
      { s with
        mnemonic := none
        hdWallet := none
        evmAccounts := s.evmAccounts.map (fun p => (p.1, blankEvm p.2))
        solanaAccounts := s.solanaAccounts.map (fun p => (p.1, blankSolana p.2)) } address) =
    (s.getAccount address).map blankAccount
  unfold Keyring.getAccount
  rw [mapGet_mapVal blankEvm, mapGet_mapVal blankSolana]
  cases mapGet s.evmAccounts (jsToLower address) <;>
    cases mapGet s.solanaAccounts address <;>
      simp [blankAccount]

/-- CLAIM C2.  After `lock()`, `getPrivateKey` fails with WALLET_LOCKED at
the address of every account the keyring holds, while `getAccounts` returns
the same accounts in the same order with id, name, address, chain family,
derivation path, index, public key and creation time unchanged and only the
private-key fields (plus the Solana secret seed) blanked. -/
theorem lock_clears_secrets (s : Keyring) :
    (∀ (address : String) (account : AccountWithKey),
      s.getAccount address = some account →
      (s.lock).getPrivateKey address =
        Result.err ErrorCode.WALLET_LOCKED "Keyring is locked") ∧
    (s.lock).getAccounts = s.getAccounts.map blankAccount := by
  constructor
  · intro address account hacc
    unfold Keyring.getPrivateKey
    rw [getAccount_lock, hacc]
    cases account <;> simp [blankAccount, blankEvm, blankSolana, AccountWithKey.privateKey]
  · show (Keyring.getAccounts
      { s with
        mnemonic := none
        hdWallet := none
        evmAccounts := s.evmAccounts.map (fun p => (p.1, blankEvm p.2))
        solanaAccounts := s.solanaAccounts.map (fun p => (p.1, blankSolana p.2)) }) =
      s.getAccounts.map blankAccount
    unfold Keyring.getAccounts
    simp only [mapValues, List.map_map]
    rw [List.map_append]
    congr 1 <;> rw [List.map_map] <;> exact List.map_congr_left (fun p _ => rfl)

/-- Witness for C2 at a concrete two-account keyring, looked up with a
differently-cased EVM address. -/
theorem lock_clears_secrets_witness :
    (Keyring.lock
      ⟨some "mn",
        [("0xab", ⟨"i1", "n1", "0xAb", ChainFamily.EVM, "m/e", 0, "pk1", "sec1", 0⟩)],
        [("So1", ⟨"i2", "n2", "So1", ChainFamily.SOLANA, "m/s", 0, "pk2", "sec2", "seed2", 0⟩)],
        1, 1, some ⟨"mn"⟩⟩).getPrivateKey "0XAB" =
      Result.err ErrorCode.WALLET_LOCKED "Keyring is locked" :=
  (lock_clears_secrets
    ⟨some "mn",
      [("0xab", ⟨"i1", "n1", "0xAb", ChainFamily.EVM, "m/e", 0, "pk1", "sec1", 0⟩)],
      [("So1", ⟨"i2", "n2", "So1", ChainFamily.SOLANA, "m/s", 0, "pk2", "sec2", "seed2", 0⟩)],
      1, 1, some ⟨"mn"⟩⟩).1 "0XAB"
    (AccountWithKey.evm ⟨"i1", "n1", "0xAb", ChainFamily.EVM, "m/e", 0, "pk1", "sec1", 0⟩)
    (by decide)

/-- Sequence of `createAccount` calls (one per requested family, default
names), threading the keyring state and collecting the results. -/
def runCreates : Keyring → List ChainFamily → Except String (List (Result AccountWithKey) × Keyring)
  | s, [] => Except.ok ([], s)
  | s, f :: fs =>
    match s.createAccount f none with
    | Except.error e => Except.error e
    | Except.ok (r, s1) =>
      match runCreates s1 fs with
      | Except.error e => Except.error e
      | Except.ok (rs, s2) => Except.ok (r :: rs, s2)

/-- Indices of the EVM accounts returned by a run, in creation order. -/
def evmIndices (rs : List (Result AccountWithKey)) : List Int :=
  rs.filterMap (fun r =>
    match r with
    | Result.ok (AccountWithKey.evm a) => some a.index
    | _ => none)

/-- Indices of the Solana accounts returned by a run, in creation order. -/
def solanaIndices (rs : List (Result AccountWithKey)) : List Int :=
  rs.filterMap (fun r =>
    match r with
    | Result.ok (AccountWithKey.solana a) => some a.index
    | _ => none)

/-- Unlocked EVM account creation succeeds, returns the account stamped
with the current counter, and advances only the EVM counter. -/
theorem createAccount_evm (s : Keyring) (w : HDWalletM) (hw : s.hdWallet = some w) :
    ∃ acct s1, s.createAccount ChainFamily.EVM none =
        Except.ok (Result.ok (AccountWithKey.evm acct), s1) ∧
      acct.index = (s.nextEvmIndex : Int) ∧
      s1.nextEvmIndex = s.nextEvmIndex + 1 ∧
      s1.nextSolanaIndex = s.nextSolanaIndex ∧
      s1.hdWallet = some w := by
  unfold Keyring.createAccount
  rw [hw]
  exact ⟨_, _, rfl, rfl, rfl, rfl, rfl⟩

/-- Unlocked Solana account creation succeeds, returns the account stamped
with the current counter, and advances only the Solana counter. -/
theorem createAccount_solana (s : Keyring) (w : HDWalletM) (hw : s.hdWallet = some w) :
    ∃ acct s1, s.createAccount ChainFamily.SOLANA none =
        Except.ok (Result.ok (AccountWithKey.solana acct), s1) ∧
      acct.index = (s.nextSolanaIndex : Int) ∧
      s1.nextSolanaIndex = s.nextSolanaIndex + 1 ∧
      s1.nextEvmIndex = s.nextEvmIndex ∧
      s1.hdWallet = some w := by
  unfold Keyring.createAccount
  rw [hw]
  exact ⟨_, _, rfl, rfl, rfl, rfl, rfl⟩

/-- Interleaving-independent counter discipline: running any sequence of
creations from an unlocked state succeeds, each family receives the
consecutive indices starting at its current counter, and each counter ends
advanced by exactly the number of creations of its own family. -/
theorem runCreates_spec (fams : List ChainFamily) :
    ∀ (s : Keyring) (w : HDWalletM), s.hdWallet = some w →
    ∃ rs t, runCreates s fams = Except.ok (rs, t) ∧
      evmIndices rs =
        (List.range (fams.count ChainFamily.EVM)).map
          (fun k => ((s.nextEvmIndex + k : Nat) : Int)) ∧
      solanaIndices rs =
        (List.range (fams.count ChainFamily.SOLANA)).map
          (fun k => ((s.nextSolanaIndex + k : Nat) : Int)) ∧
      t.nextEvmIndex = s.nextEvmIndex + fams.count ChainFamily.EVM ∧
      t.nextSolanaIndex = s.nextSolanaIndex + fams.count ChainFamily.SOLANA ∧
      t.hdWallet = some w := by
  induction fams with
  | nil =>
    intro s w hw
    exact ⟨[], s, rfl, by simp [evmIndices], by simp [solanaIndices], by simp, by simp, hw⟩
  | cons f fs ih =>
    intro s w hw
    cases f with
    | EVM =>
      obtain ⟨acct, s1, hc, hidx, he1, hs1, hw1⟩ := createAccount_evm s w hw
      obtain ⟨rs, t, hrun, hev, hsol, hte, hts, htw⟩ := ih s1 w hw1
      refine ⟨Result.ok (AccountWithKey.evm acct) :: rs, t, ?_, ?_, ?_, ?_, ?_, htw⟩
      · unfold runCreates
        rw [hc]
        dsimp only
        rw [hrun]
      · simp only [evmIndices, List.filterMap_cons] at hev ⊢
        rw [hev, hidx, he1]
        have hcount : (ChainFamily.EVM :: fs).count ChainFamily.EVM =
            fs.count ChainFamily.EVM + 1 := by simp [List.count_cons]
        rw [hcount, List.range_succ_eq_map]
        simp only [List.map_cons, List.map_map]
        refine congrArg₂ List.cons (by simp) ?_
        exact List.map_congr_left (fun k _ => by simp [Function.comp]; omega)
      · simp only [solanaIndices, List.filterMap_cons] at hsol ⊢
        rw [hsol, hs1]
        have hcount : (ChainFamily.EVM :: fs).count ChainFamily.SOLANA =
            fs.count ChainFamily.SOLANA := by simp [List.count_cons]
        rw [hcount]
      · rw [hte, he1]
        simp [List.count_cons]
        omega
      · rw [hts, hs1]
        simp [List.count_cons]
    | SOLANA =>
      obtain ⟨acct, s1, hc, hidx, hs1, he1, hw1⟩ := createAccount_solana s w hw
      obtain ⟨rs, t, hrun, hev, hsol, hte, hts, htw⟩ := ih s1 w hw1
      refine ⟨Result.ok (AccountWithKey.solana acct) :: rs, t, ?_, ?_, ?_, ?_, ?_, htw⟩
      · unfold runCreates
        rw [hc]
        dsimp only
        rw [hrun]
      · simp only [evmIndices, List.filterMap_cons] at hev ⊢
        rw [hev, he1]
        have hcount : (ChainFamily.SOLANA :: fs).count ChainFamily.EVM =
            fs.count ChainFamily.EVM := by simp [List.count_cons]
        rw [hcount]
      · simp only [solanaIndices, List.filterMap_cons] at hsol ⊢
        rw [hsol, hidx, hs1]
        have hcount : (ChainFamily.SOLANA :: fs).count ChainFamily.SOLANA =
            fs.count ChainFamily.SOLANA + 1 := by simp [List.count_cons]
        rw [hcount, List.range_succ_eq_map]
        simp only [List.map_cons, List.map_map]
        refine congrArg₂ List.cons (by simp) ?_
        exact List.map_congr_left (fun k _ => by simp [Function.comp]; omega)
      · rw [hte, he1]
        simp [List.count_cons]
      · rw [hts, hs1]
        simp [List.count_cons]
        omega

/-- CLAIM C6.  From a keyring with fresh counters, any interleaving of
creations gives each family the index sequence 0, 1, ..., N-1 in creation
order (N the number of creations of that family), and each counter ends at
exactly its own creation count — the other family's creations never move
it. -/
theorem index_monotonicity (s : Keyring) (w : HDWalletM) (fams : List ChainFamily)
    (hw : s.hdWallet = some w) (he : s.nextEvmIndex = 0) (hs : s.nextSolanaIndex = 0) :
    ∃ rs t, runCreates s fams = Except.ok (rs, t) ∧
      evmIndices rs = (List.range (fams.count ChainFamily.EVM)).map (fun k => Int.ofNat k) ∧
      solanaIndices rs =
        (List.range (fams.count ChainFamily.SOLANA)).map (fun k => Int.ofNat k) ∧
      t.nextEvmIndex = fams.count ChainFamily.EVM ∧
      t.nextSolanaIndex = fams.count ChainFamily.SOLANA := by
  obtain ⟨rs, t, h1, h2, h3, h4, h5, _⟩ := runCreates_spec fams s w hw
  refine ⟨rs, t, h1, ?_, ?_, by omega, by omega⟩
  · rw [h2, he]
    exact List.map_congr_left (fun k _ => by simp [Int.ofNat_eq_coe])
  · rw [h3, hs]
    exact List.map_congr_left (fun k _ => by simp [Int.ofNat_eq_coe])

/-- Witness for C6 at a concrete interleaving EVM, SOLANA, EVM on a fresh
unlocked keyring. -/
theorem index_monotonicity_witness :
    ∃ rs t, runCreates ⟨some "mn", [], [], 0, 0, some ⟨"mn"⟩⟩
        [ChainFamily.EVM, ChainFamily.SOLANA, ChainFamily.EVM] = Except.ok (rs, t) ∧
      evmIndices rs =
        (List.range ([ChainFamily.EVM, ChainFamily.SOLANA,
          ChainFamily.EVM].count ChainFamily.EVM)).map (fun k => Int.ofNat k) ∧
      solanaIndices rs =
        (List.range ([ChainFamily.EVM, ChainFamily.SOLANA,
          ChainFamily.EVM].count ChainFamily.SOLANA)).map (fun k => Int.ofNat k) ∧
      t.nextEvmIndex =
        [ChainFamily.EVM, ChainFamily.SOLANA, ChainFamily.EVM].count ChainFamily.EVM ∧
      t.nextSolanaIndex =
        [ChainFamily.EVM, ChainFamily.SOLANA, ChainFamily.EVM].count ChainFamily.SOLANA :=
  index_monotonicity ⟨some "mn", [], [], 0, 0, some ⟨"mn"⟩⟩ ⟨"mn"⟩
    [ChainFamily.EVM, ChainFamily.SOLANA, ChainFamily.EVM] rfl rfl rfl

/-- Lock-state invariant of the claim: the HD wallet reference is non-null
iff the mnemonic is non-null. -/
def KInv (s : Keyring) : Prop :=
  s.hdWallet.isSome = s.mnemonic.isSome

/-- Decidability of the lock-state invariant. -/
instance KInvDec (s : Keyring) : Decidable (KInv s) := by
  unfold KInv
  infer_instance

/-- Benign-import condition: the stored blob either fails AEAD decryption
under the presented password, or carries a payload whose mnemonic passes
validation.  Every blob produced by export from a keyring holding a valid
mnemonic is benign for the correct password. -/
def importBenign (v : String → Bool) (stored : StoredKeyring) (password : String) : Bool :=
  match decryptJson stored.encrypted
      (deriveKey password
        (KdfParams.pbkdf2 stored.kdf.iterations stored.kdf.salt stored.kdf.keyLength)) with
  | Except.ok data => v data.mnemonic
  | Except.error _ => true

/-- CLAIM C10 (amended).  The fresh keyring satisfies the lock-state
invariant; initialize, restore, lock, destroy and createAccount preserve it
(export does not touch the state at all — its embedding returns no state);
the import operation preserves it on every benign blob (decryption failure, or a payload
with a validating mnemonic — in particular on success); and under the
invariant the mnemonic-gated and wallet-gated operations agree: export
succeeds exactly when the keyring is unlocked, and createAccount fails with
WALLET_LOCKED whenever it is locked. -/
theorem lock_state_agreement :
    KInv Keyring.new ∧
    (∀ (v : String → Bool) (s : Keyring) (g m : String) (s1 : Keyring),
      Keyring.initializeOp v s g = Except.ok (m, s1) → KInv s1) ∧
    (∀ (v : String → Bool) (s : Keyring) (m : String) (r : Result Unit) (s1 : Keyring),
      Keyring.restore v s m = Except.ok (r, s1) → KInv s → KInv s1) ∧
    (∀ s : Keyring, KInv s.lock) ∧
    (∀ s : Keyring, KInv s.destroy) ∧
    (∀ (s : Keyring) (f : ChainFamily) (n : Option String) (r : Result AccountWithKey)
        (s1 : Keyring),
      Keyring.createAccount s f n = Except.ok (r, s1) → KInv s → KInv s1) ∧
    (∀ (v : String → Bool) (s : Keyring) (stored : StoredKeyring) (pw : String),
      KInv s → importBenign v stored pw = true → KInv (Keyring.importOp v s stored pw).2) ∧
    (∀ (s : Keyring) (pw : String) (salt iv : List Nat),
      KInv s → (Keyring.exportOp s pw salt iv).isOk = s.isUnlocked) ∧
    (∀ (s : Keyring) (f : ChainFamily) (n : Option String),
      KInv s → s.isUnlocked = false →
      Keyring.createAccount s f n =
        Except.ok (Result.err ErrorCode.WALLET_LOCKED "Keyring is locked", s)) := by
  refine ⟨rfl, ?_, ?_, ?_, ?_, ?_, ?_, ?_, ?_⟩
  · intro v s g m s1 h
    by_cases hv : v g
    · simp [Keyring.initializeOp, Keyring.unlock, HDWalletM.fromMnemonic, hv] at h
      rw [← h.2]
      simp [KInv]
    · simp [Keyring.initializeOp, Keyring.unlock, HDWalletM.fromMnemonic, hv] at h
  · intro v s m r s1 h hinv
    by_cases hv : v m
    · simp [Keyring.restore, Keyring.unlock, HDWalletM.fromMnemonic, hv] at h
      rw [← h.2]
      simp [KInv]
    · simp [Keyring.restore, hv] at h
      rw [← h.2]
      exact hinv
  · intro s
    simp [KInv, Keyring.lock]
  · intro s
    simp [KInv, Keyring.destroy, Keyring.lock]
  · intro s f n r s1 h hinv
    rcases hsw : s.hdWallet with _ | w
    · simp [Keyring.createAccount, hsw] at h
      rw [← h.2]
      exact hinv
    · cases f
      · simp [Keyring.createAccount, hsw, createEvmAccountFromHDKey,
          HDWalletM.deriveEvmKey, HDWalletM.derivePath] at h
        rw [← h.2]
        rw [KInv, hsw] at hinv
        simp [KInv, hsw]
        simpa using hinv.symm
      · simp [Keyring.createAccount, hsw, createSolanaAccountFromHDKey,
          HDWalletM.deriveSolanaKey, HDWalletM.derivePath] at h
        rw [← h.2]
        rw [KInv, hsw] at hinv
        simp [KInv, hsw]
        simpa using hinv.symm
  · intro v s stored pw hinv hben
    by_cases halg : stored.kdf.algorithm = "pbkdf2"
    · rcases hdec : decryptJson stored.encrypted
          (deriveKey pw
            (KdfParams.pbkdf2 stored.kdf.iterations stored.kdf.salt stored.kdf.keyLength)) with
        e | data
      · simpa [Keyring.importOp, halg, hdec] using hinv
      · rw [importBenign, hdec] at hben
        dsimp only at hben
        simp [Keyring.importOp, halg, hdec, HDWalletM.fromMnemonic, hben, KInv]
    · simpa [Keyring.importOp, halg] using hinv
  · intro s pw salt iv hinv
    rcases hm : s.mnemonic with _ | m <;>
      simp [Keyring.exportOp, Keyring.isUnlocked, hm, Result.isOk]
  · intro s f n hinv hun
    rw [Keyring.isUnlocked] at hun
    rcases hsw : s.hdWallet with _ | w
    · simp [Keyring.createAccount, hsw]
    · rw [KInv, hsw, hun] at hinv
      simp at hinv

/-- Counterexample for C10 as stated: importing a well-authenticated blob
whose payload carries a non-validating mnemonic into a locked keyring
returns DECRYPTION_FAILED but leaves the mnemonic overwritten with the HD
wallet still null — the import operation does not preserve the claimed
invariant. -/
theorem lock_state_agreement_counterexample :
    KInv Keyring.new ∧
    (Keyring.importOp (fun m => m = "good") Keyring.new
      ⟨1, ⟨"pbkdf2", 600000, [7], 32⟩,
        ⟨"aes-256-gcm", [9],
          ⟨DerivedKey.pbkdf2Key "pw" [7] 600000 32, ⟨"x", [], [], 0, 0⟩, true⟩⟩⟩
      "pw").1 =
      Result.err ErrorCode.DECRYPTION_FAILED "Failed to decrypt keyring. Wrong password?" ∧
    ¬ KInv (Keyring.importOp (fun m => m = "good") Keyring.new
      ⟨1, ⟨"pbkdf2", 600000, [7], 32⟩,
        ⟨"aes-256-gcm", [9],
          ⟨DerivedKey.pbkdf2Key "pw" [7] 600000 32, ⟨"x", [], [], 0, 0⟩, true⟩⟩⟩
      "pw").2 := by
  refine ⟨rfl, by decide, by decide⟩

/-- Witness for C10: the benign-import clause at a concretely successful
blob, and the lock clause at a concrete unlocked keyring. -/
theorem lock_state_agreement_witness :
    KInv (Keyring.importOp (fun m => m = "good") Keyring.new
      ⟨1, ⟨"pbkdf2", 600000, [7], 32⟩,
        ⟨"aes-256-gcm", [9],
          ⟨DerivedKey.pbkdf2Key "pw" [7] 600000 32, ⟨"good", [], [], 0, 0⟩, true⟩⟩⟩
      "pw").2 ∧
    KInv (Keyring.lock ⟨some "a", [], [], 0, 0, some ⟨"a"⟩⟩) :=
  ⟨lock_state_agreement.2.2.2.2.2.2.1 (fun m => m = "good") Keyring.new
    ⟨1, ⟨"pbkdf2", 600000, [7], 32⟩,
      ⟨"aes-256-gcm", [9],
        ⟨DerivedKey.pbkdf2Key "pw" [7] 600000 32, ⟨"good", [], [], 0, 0⟩, true⟩⟩⟩
    "pw" (by decide) (by decide),
   lock_state_agreement.2.2.2.1 ⟨some "a", [], [], 0, 0, some ⟨"a"⟩⟩⟩

/-- Opening an honestly sealed envelope with the sealing key returns the
payload. -/
theorem decrypt_encrypt (d : KeyringData) (k : DerivedKey) (iv : List Nat) :
    decryptJson (encryptJson d k iv) k = Except.ok d := by
  simp [decryptJson, encryptJson]

/-- Rebuilding an association list by inserting each value under its key,
in order, reproduces the original list when the keys are fresh and free of
duplicates. -/
theorem foldl_mapSet_rebuild {α : Type} (key : α → String) :
    ∀ (l : List α) (acc : List (String × α)),
      (∀ a ∈ l, key a ∉ acc.map Prod.fst) →
      (l.map key).Nodup →
      l.foldl (fun m a => mapSet m (key a) a) acc = acc ++ l.map (fun a => (key a, a)) := by
  intro l
  induction l with
  | nil => intro acc _ _; simp
  | cons a rest ih =>
    intro acc hdisj hnodup
    have hnot : key a ∉ acc.map Prod.fst := hdisj a (by simp)
    have hany : acc.any (fun p => p.1 = key a) = false := by
      simp only [List.any_eq_false, decide_eq_true_eq]
      intro p hp hkey
      exact hnot (List.mem_map.mpr ⟨p, hp, hkey⟩)
    have hset : mapSet acc (key a) a = acc ++ [(key a, a)] := by
      unfold mapSet
      rw [hany]
      simp
    simp only [List.foldl_cons, hset]
    rw [ih (acc ++ [(key a, a)]) ?_ ?_]
    · simp
    · intro b hb
      simp only [List.map_append, List.mem_append, List.map_cons, List.mem_singleton]
      rintro (hmem | hmem)
      · exact hdisj b (List.mem_cons_of_mem a hb) hmem
      · rw [List.map_cons, List.nodup_cons] at hnodup
        rcases List.mem_cons.mp hmem with heq | hnil
        · exact hnodup.1 (heq ▸ List.mem_map_of_mem key hb)
        · simp at hnil
    · simp only [List.map_cons] at hnodup
      exact (List.nodup_cons.mp hnodup).2

/-- CLAIM C1 (amended).  For every unlocked keyring whose mnemonic passes
validation (true of every phrase adopted through initialize or restore) and
whose account maps obey the JS-Map representation invariants (each entry
keyed by its normalized address, no duplicate keys — maintained by
createAccount and import), exporting under any password and importing the
result with the same password into any target keyring succeeds and restores
the identical snapshot: same mnemonic, same accounts with the same keys, in
the same order, and the same next indices. -/
theorem export_import_roundtrip (v : String → Bool) (s t : Keyring) (password m : String)
    (salt iv : List Nat)
    (hm : s.mnemonic = some m) (hv : v m = true)
    (hek : ∀ p ∈ s.evmAccounts, p.1 = jsToLower p.2.address)
    (hen : (s.evmAccounts.map Prod.fst).Nodup)
    (hsk : ∀ p ∈ s.solanaAccounts, p.1 = p.2.address)
    (hsn : (s.solanaAccounts.map Prod.fst).Nodup) :
    ∃ stored, s.exportOp password salt iv = Result.ok stored ∧
      (Keyring.importOp v t stored password).1 = Result.ok () ∧
      (Keyring.importOp v t stored password).2.snapshot = s.snapshot := by
  have hevm : (mapValues s.evmAccounts).foldl
      (fun m2 a => mapSet m2 (jsToLower a.address) a) [] = s.evmAccounts := by
    have hkeys : (mapValues s.evmAccounts).map (fun a => jsToLower a.address) =
        s.evmAccounts.map Prod.fst := by
      rw [mapValues, List.map_map]
      exact List.map_congr_left (fun p hp => (hek p hp).symm)
    rw [foldl_mapSet_rebuild (fun a => jsToLower a.address) (mapValues s.evmAccounts) []
      (by simp) (by rw [hkeys]; exact hen)]
    rw [List.nil_append, mapValues, List.map_map]
    calc s.evmAccounts.map ((fun a => (jsToLower a.address, a)) ∘ (fun p => p.2))
        = s.evmAccounts.map (fun p => (p.1, p.2)) :=
          List.map_congr_left (fun p hp => by
            show (jsToLower p.2.address, p.2) = (p.1, p.2)
            rw [← hek p hp])
      _ = s.evmAccounts := by
          rw [show (fun p : String × EvmAccountWithKey => (p.1, p.2)) = id from rfl]
          exact List.map_id s.evmAccounts
  have hsol : (mapValues s.solanaAccounts).foldl
      (fun m2 a => mapSet m2 a.address a) [] = s.solanaAccounts := by
    have hkeys : (mapValues s.solanaAccounts).map (fun a => a.address) =
        s.solanaAccounts.map Prod.fst := by
      rw [mapValues, List.map_map]
      exact List.map_congr_left (fun p hp => (hsk p hp).symm)
    rw [foldl_mapSet_rebuild (fun a => a.address) (mapValues s.solanaAccounts) []
      (by simp) (by rw [hkeys]; exact hsn)]
    rw [List.nil_append, mapValues, List.map_map]
    calc s.solanaAccounts.map ((fun a => (a.address, a)) ∘ (fun p => p.2))
        = s.solanaAccounts.map (fun p => (p.1, p.2)) :=
          List.map_congr_left (fun p hp => by
            show (p.2.address, p.2) = (p.1, p.2)
            rw [← hsk p hp])
      _ = s.solanaAccounts := by
          rw [show (fun p : String × SolanaAccountWithKey => (p.1, p.2)) = id from rfl]
          exact List.map_id s.solanaAccounts
  refine ⟨⟨1, ⟨"pbkdf2", 600000, salt, 32⟩,
    encryptJson
      ⟨m, mapValues s.evmAccounts, mapValues s.solanaAccounts,
        s.nextEvmIndex, s.nextSolanaIndex⟩
      (deriveKey password (KdfParams.pbkdf2 600000 salt 32)) iv⟩,
    by rw [Keyring.exportOp, hm], ?_, ?_⟩
  · have hcond : ¬ (¬ v m = true) := by simp [hv]
    have halg : ¬ (("pbkdf2" : String) ≠ "pbkdf2") := by decide
    rw [Keyring.importOp]
    dsimp only
    rw [decrypt_encrypt]
    dsimp only
    rw [HDWalletM.fromMnemonic, if_neg hcond, if_neg halg]
  · have hcond : ¬ (¬ v m = true) := by simp [hv]
    have halg : ¬ (("pbkdf2" : String) ≠ "pbkdf2") := by decide
    rw [Keyring.importOp]
    dsimp only
    rw [decrypt_encrypt]
    dsimp only
    rw [HDWalletM.fromMnemonic, if_neg hcond, if_neg halg]
    dsimp only [Keyring.snapshot]
    rw [hevm, hsol, hm]

/-- Counterexample for C1 as stated: the claim quantifies over any mnemonic,
but a keyring unlocked with a phrase that fails validation (such a state is
reachable, because a failed import leaves the payload mnemonic assigned
while keeping the old account maps) exports fine, and importing the result
with the same password into a fresh keyring fails with DECRYPTION_FAILED
and does not restore the accounts. -/
theorem export_import_roundtrip_counterexample :
    Keyring.exportOp
        ⟨some "x", [("0xab", ⟨"i", "n", "0xAb", ChainFamily.EVM, "m/e", 0, "pk", "sec", 0⟩)],
          [], 1, 0, none⟩ "pw" [1] [2] =
      Result.ok
        ⟨1, ⟨"pbkdf2", 600000, [1], 32⟩,
          encryptJson
            ⟨"x", [⟨"i", "n", "0xAb", ChainFamily.EVM, "m/e", 0, "pk", "sec", 0⟩], [], 1, 0⟩
            (deriveKey "pw" (KdfParams.pbkdf2 600000 [1] 32)) [2]⟩ ∧
    (Keyring.importOp (fun mm => mm = "good") Keyring.new
        ⟨1, ⟨"pbkdf2", 600000, [1], 32⟩,
          encryptJson
            ⟨"x", [⟨"i", "n", "0xAb", ChainFamily.EVM, "m/e", 0, "pk", "sec", 0⟩], [], 1, 0⟩
            (deriveKey "pw" (KdfParams.pbkdf2 600000 [1] 32)) [2]⟩
        "pw").1 =
      Result.err ErrorCode.DECRYPTION_FAILED "Failed to decrypt keyring. Wrong password?" ∧
    (Keyring.importOp (fun mm => mm = "good") Keyring.new
        ⟨1, ⟨"pbkdf2", 600000, [1], 32⟩,
          encryptJson
            ⟨"x", [⟨"i", "n", "0xAb", ChainFamily.EVM, "m/e", 0, "pk", "sec", 0⟩], [], 1, 0⟩
            (deriveKey "pw" (KdfParams.pbkdf2 600000 [1] 32)) [2]⟩
        "pw").2.snapshot ≠
      (⟨some "x", [("0xab", ⟨"i", "n", "0xAb", ChainFamily.EVM, "m/e", 0, "pk", "sec", 0⟩)],
          [], 1, 0, none⟩ : Keyring).snapshot := by
  refine ⟨rfl, by decide, by decide⟩

/-- Witness for C1 at a concrete well-keyed two-account keyring with a
validating mnemonic, imported into a fresh keyring. -/
theorem export_import_roundtrip_witness :
    ∃ stored,
      Keyring.exportOp
          ⟨some "good",
            [("0xab", ⟨"i1", "n1", "0xAb", ChainFamily.EVM, "m/e", 0, "pk1", "k1", 0⟩)],
            [("So1", ⟨"i2", "n2", "So1", ChainFamily.SOLANA, "m/s", 0, "pk2", "k2", "sd2", 0⟩)],
            1, 1, some ⟨"good"⟩⟩ "pw" [1] [2] = Result.ok stored ∧
      (Keyring.importOp (fun mm => mm = "good") Keyring.new stored "pw").1 = Result.ok () ∧
      (Keyring.importOp (fun mm => mm = "good") Keyring.new stored "pw").2.snapshot =
        (⟨some "good",
          [("0xab", ⟨"i1", "n1", "0xAb", ChainFamily.EVM, "m/e", 0, "pk1", "k1", 0⟩)],
          [("So1", ⟨"i2", "n2", "So1", ChainFamily.SOLANA, "m/s", 0, "pk2", "k2", "sd2", 0⟩)],
          1, 1, some ⟨"good"⟩⟩ : Keyring).snapshot :=
  export_import_roundtrip (fun mm => mm = "good")
    ⟨some "good",
      [("0xab", ⟨"i1", "n1", "0xAb", ChainFamily.EVM, "m/e", 0, "pk1", "k1", 0⟩)],
      [("So1", ⟨"i2", "n2", "So1", ChainFamily.SOLANA, "m/s", 0, "pk2", "k2", "sd2", 0⟩)],
      1, 1, some ⟨"good"⟩⟩ Keyring.new "pw" "good" [1] [2] rfl (by decide) (by decide)
    (by decide) (by decide) (by decide)

/-- Component body after stripping one trailing apostrophe, as
`parseDerivationPath` does before calling parseInt. -/
def stripApos (part : List Char) : List Char :=
  if part.getLast? = some apos then part.dropLast else part

/-- Acceptance of one component by the source parser: the stripped body has
a parseable, non-negative JS parseInt value. -/
def componentAccepted (part : List Char) : Bool :=
  match jsParseInt10 (String.mk (stripApos part)) with
  | none => false
  | some i => decide (0 ≤ i)

/-- Acceptance of a whole path by the source parser. -/
def pathAccepted (path : String) : Bool :=
  decide (path.toList.take 2 = ['m', '/'])
    && (splitSlash (path.toList.drop 2)).all componentAccepted

/-- Success of `parseComponent` coincides with `componentAccepted`. -/
theorem parseComponent_isSome (part : List Char) :
    (parseComponent part).toOption.isSome = componentAccepted part := by
  unfold parseComponent componentAccepted stripApos
  dsimp only
  cases jsParseInt10 (String.mk (if part.getLast? = some apos then part.dropLast else part)) with
  | none => rfl
  | some i =>
    dsimp only
    by_cases hi : i < 0
    · rw [if_pos hi]
      simp [Except.toOption, Int.not_le.mpr hi]
    · rw [if_neg hi]
      simp [Except.toOption, Int.not_lt.mp hi]

/-- Success of the component traversal coincides with acceptance of every
component. -/
theorem parseComponents_isSome (l : List (List Char)) :
    (parseComponents l).toOption.isSome = l.all componentAccepted := by
  induction l with
  | nil => rfl
  | cons a rest ih =>
    rw [parseComponents, List.all_cons]
    cases hpc : parseComponent a with
    | error e =>
      have hacc := parseComponent_isSome a
      rw [hpc] at hacc
      simp only [Except.toOption] at hacc
      simp [Except.toOption, ← hacc]
    | ok c =>
      have hacc := parseComponent_isSome a
      rw [hpc] at hacc
      simp only [Except.toOption] at hacc
      rw [← hacc]
      cases hrest : parseComponents rest with
      | error e2 =>
        rw [hrest] at ih
        simp only [Except.toOption] at ih
        simp [Except.toOption, ← ih]
      | ok cs =>
        rw [hrest] at ih
        simp only [Except.toOption] at ih
        simp [Except.toOption, ← ih]

/-- Runs of ASCII digits survive `leadingDigits` whole. -/
theorem leadingDigits_all (l : List Char) (h : l.all isAsciiDigit = true) :
    leadingDigits l = l := by
  induction l with
  | nil => rfl
  | cons c cs ih =>
    rw [List.all_cons] at h
    rcases Bool.and_eq_true_iff.mp h with ⟨hc, hcs⟩
    rw [leadingDigits, if_pos hc, ih hcs]

/-- JS parseInt of a non-empty all-digit string is its numeric value. -/
theorem jsParseInt10_digits (l : List Char) (hne : l ≠ []) (hdig : l.all isAsciiDigit = true) :
    jsParseInt10 (String.mk l) = some ((natOfDigits l : Nat) : Int) := by
  cases l with
  | nil => exact absurd rfl hne
  | cons c cs =>
    rw [List.all_cons] at hdig
    rcases Bool.and_eq_true_iff.mp hdig with ⟨hc, hcs⟩
    have hcn : 48 ≤ c.toNat ∧ c.toNat ≤ 57 := by simpa [isAsciiDigit] using hc
    have hspace : isJsSpace c = false := by
      rcases hbp : isJsSpace c with _ | _
      · rfl
      · exfalso
        rcases (by simpa [isJsSpace] using hbp : c = ' ' ∨ c = '\t' ∨ c = '\n' ∨ c = '\r') with
          rfl | rfl | rfl | rfl <;> exact absurd hcn (by decide)
    have hdash : ¬ (c = '-') := by
      rintro rfl
      exact absurd hcn (by decide)
    have hplus : ¬ (c = '+') := by
      rintro rfl
      exact absurd hcn (by decide)
    show jsParseInt10 ⟨c :: cs⟩ = some ((natOfDigits (c :: cs) : Nat) : Int)
    unfold jsParseInt10
    have htl : (String.mk (c :: cs)).toList = c :: cs := rfl
    rw [htl, List.dropWhile_cons, hspace]
    simp only [Bool.false_eq_true, if_false, List.head?_cons]
    have hnosign : ¬ (some c = some '-' ∨ some c = some '+') := by
      rintro (hx | hx) <;> simp at hx
      · exact hdash hx
      · exact hplus hx
    rw [if_neg hnosign]
    rw [leadingDigits_all (c :: cs) (by rw [List.all_cons]; exact Bool.and_eq_true_iff.mpr ⟨hc, hcs⟩)]
    rw [if_neg (by simp)]
    simp [hdash]

/-- Spec-well-formed components parse to their digit value with the
hardened flag given by the trailing apostrophe. -/
theorem parseComponent_spec (part : List Char) (h : specComponentOk part = true) :
    parseComponent part =
      Except.ok ⟨natOfDigits (stripApos part), decide (part.getLast? = some apos)⟩ := by
  have h2 : ¬ (stripApos part).length = 0 ∧ (stripApos part).all isAsciiDigit = true := by
    simpa [specComponentOk, stripApos] using h
  have hne : stripApos part ≠ [] := by
    intro hx
    exact h2.1 (by rw [hx]; rfl)
  unfold parseComponent
  dsimp only
  rw [show (if part.getLast? = some apos then part.dropLast else part) = stripApos part from rfl]
  rw [jsParseInt10_digits (stripApos part) hne h2.2]
  dsimp only
  rw [if_neg (Int.not_lt.mpr (Int.natCast_nonneg _))]
  simp

/-- Spec-well-formed component lists parse to the mapped values. -/
theorem parseComponents_spec (l : List (List Char))
    (h : ∀ p ∈ l, specComponentOk p = true) :
    parseComponents l =
      Except.ok (l.map
        (fun part => ⟨natOfDigits (stripApos part), decide (part.getLast? = some apos)⟩)) := by
  induction l with
  | nil => rfl
  | cons a rest ih =>
    rw [parseComponents, parseComponent_spec a (h a (by simp)),
      ih (fun p hp => h p (List.mem_cons_of_mem a hp))]
    rfl

/-- CLAIM C8 (amended).  The parser succeeds exactly when the path has the
m/ head and every slash component, stripped of one trailing apostrophe,
carries a parseable non-negative JS parseInt value (parseInt ignores
trailing non-digit characters, so components such as 1x are accepted as 1,
unlike what the claim states); and on every path that is well-formed in the
words of the spec it succeeds, returning each component's numeric value
with the hardened flag set iff the component ends in an apostrophe. -/
theorem parse_path_amended (path : String) :
    (parseDerivationPath path).toOption.isSome = pathAccepted path ∧
    (specPathOk path = true →
      parseDerivationPath path =
        Except.ok ((splitSlash (path.toList.drop 2)).map
          (fun part => ⟨natOfDigits (stripApos part), decide (part.getLast? = some apos)⟩))) := by
  constructor
  · by_cases hp : path.toList.take 2 = ['m', '/']
    · rw [parseDerivationPath, if_pos hp, parseComponents_isSome, pathAccepted]
      simp [hp]
      exact fun _ => hp
    · rw [parseDerivationPath, if_neg hp, pathAccepted]
      simp [hp, Except.toOption]
      exact fun hx => absurd hx hp
  · intro hs
    have hs2 : path.toList.take 2 = ['m', '/'] ∧
        ∀ p ∈ splitSlash (path.toList.drop 2), specComponentOk p = true := by
      simpa [specPathOk, List.all_eq_true] using hs
    rw [parseDerivationPath, if_pos hs2.1, parseComponents_spec _ hs2.2]

/-- Counterexample for C8 as stated: the component 1x is not a non-negative
integer (so the claim requires failure), yet the parser accepts the path
and returns index 1 — JS parseInt reads the leading digits and ignores the
rest. -/
theorem parse_path_counterexample :
    specPathOk "m/1x" = false ∧
    parseDerivationPath "m/1x" = Except.ok [⟨1, false⟩] := by
  exact ⟨by decide, rfl⟩

/-- Witness for C8 at a concrete well-formed path with hardened and
non-hardened components. -/
theorem parse_path_amended_witness :
    parseDerivationPath ("m/44" ++ aposStr ++ "/0/5") =
      Except.ok ((splitSlash (("m/44" ++ aposStr ++ "/0/5").toList.drop 2)).map
        (fun part => ⟨natOfDigits (stripApos part), decide (part.getLast? = some apos)⟩)) :=
  (parse_path_amended ("m/44" ++ aposStr ++ "/0/5")).2 (by decide)

/-- Lowercase hex digit character. -/
def isLowerHexChar (c : Char) : Bool :=
  c ∈ "0123456789abcdef".toList

/-- Hex digit character, either case. -/
def isHexChar (c : Char) : Bool :=
  c ∈ "0123456789abcdefABCDEF".toList

/-- Format of the addresses the claim covers: 40 hex characters, with or
without a 0x (or 0X) head, any casing. -/
def isEvmAddressFormat (a : String) : Bool :=
  if a.toList.take 2 = ['0', 'x'] ∨ a.toList.take 2 = ['0', 'X'] then
    (a.toList.drop 2).length = 40 ∧ (a.toList.drop 2).all isHexChar
  else
    a.toList.length = 40 ∧ a.toList.all isHexChar

/-- Lowercased, prefix-stripped character list an address is reduced to at
the start of `checksumEvmAddress`. -/
def coreOf (a : String) : List Char :=
  replace0x (a.toList.map Char.toLower)

/-- Hex rendering of the Keccak-256 hash of a stripped address. -/
def hashHexOf (core : List Char) : List Char :=
  bytesToHexChars (keccak256 (charBytes core))

/-- Unfolding of `checksumEvmAddress` through `coreOf` and `hashHexOf`. -/
theorem checksum_unfold (a : String) :
    checksumEvmAddress a =
      String.mk ('0' :: 'x' :: caseFold (coreOf a) (hashHexOf (coreOf a))) := rfl

/-- Lowercasing undoes the uppercasing of a lowercase hex digit. -/
theorem hexLower_toLower_toUpper :
    ∀ c ∈ "0123456789abcdef".toList, Char.toLower (Char.toUpper c) = c := by decide

/-- Lowercase hex digits are toLower fixed points. -/
theorem hexLower_toLower : ∀ c ∈ "0123456789abcdef".toList, Char.toLower c = c := by decide

/-- No lowercase hex digit is the letter x. -/
theorem hexLower_ne_x : ∀ c ∈ "0123456789abcdef".toList, c ≠ 'x' := by decide

/-- Lowercasing a hex digit of either case gives a lowercase hex digit. -/
theorem hex_toLower_mem :
    ∀ c ∈ "0123456789abcdefABCDEF".toList,
      Char.toLower c ∈ "0123456789abcdef".toList := by decide

/-- Membership view of `isLowerHexChar`. -/
theorem isLowerHexChar_mem {c : Char} (h : isLowerHexChar c = true) :
    c ∈ "0123456789abcdef".toList :=
  of_decide_eq_true h

/-- Membership view of `isHexChar`. -/
theorem isHexChar_mem {c : Char} (h : isHexChar c = true) :
    c ∈ "0123456789abcdefABCDEF".toList :=
  of_decide_eq_true h

/-- Stripping the 0x head. -/
theorem replace0x_cons_0x (l : List Char) : replace0x ('0' :: 'x' :: l) = l := rfl

/-- Lists of lowercase hex digits contain no 0x occurrence, so the replace
is the identity on them. -/
theorem replace0x_all_lower_hex :
    ∀ (l : List Char), (∀ c ∈ l, isLowerHexChar c = true) → replace0x l = l
  | [], _ => rfl
  | [_], _ => rfl
  | c :: c1 :: rest, h => by
    have hc1 : ¬ (c1 = 'x') :=
      hexLower_ne_x c1 (isLowerHexChar_mem (h c1 (by simp)))
    have hrec := replace0x_all_lower_hex (c1 :: rest)
      (fun c2 hc2 => h c2 (List.mem_cons_of_mem c hc2))
    rw [replace0x]
    by_cases hc : c = '0'
    · rw [if_pos hc, if_neg hc1, hrec]
    · rw [if_neg hc, hrec]

/-- Lowercasing the cased output recovers the lowercase input. -/
theorem caseFold_toLower (cs : List Char) :
    ∀ (hs : List Char), (∀ c ∈ cs, isLowerHexChar c = true) →
      (caseFold cs hs).map Char.toLower = cs := by
  induction cs with
  | nil => intro hs _; rfl
  | cons c cs2 ih =>
    intro hs h
    have hcmem := isLowerHexChar_mem (h c (by simp))
    have hrest : ∀ c2 ∈ cs2, isLowerHexChar c2 = true :=
      fun c2 hc2 => h c2 (List.mem_cons_of_mem c hc2)
    cases hs with
    | nil =>
      rw [caseFold, List.map_cons, hexLower_toLower c hcmem, ih [] hrest]
    | cons h1 hs1 =>
      rw [caseFold, List.map_cons]
      by_cases hm : 8 ≤ hexVal h1
      · rw [if_pos hm, hexLower_toLower_toUpper c hcmem, ih hs1 hrest]
      · rw [if_neg hm, hexLower_toLower c hcmem, ih hs1 hrest]

/-- Character-level description of the casing loop. -/
theorem caseFold_getD (cs : List Char) :
    ∀ (hs : List Char) (i : Nat) (d d2 : Char), i < cs.length → i < hs.length →
      (caseFold cs hs).getD i d =
        if 8 ≤ hexVal (hs.getD i d2) then (cs.getD i d).toUpper else cs.getD i d := by
  induction cs with
  | nil =>
    intro hs i d d2 hi _
    simp at hi
  | cons c cs2 ih =>
    intro hs i d d2 hi hh
    cases hs with
    | nil => simp at hh
    | cons h1 hs1 =>
      cases i with
      | zero =>
        rw [caseFold]
        simp [List.getD_cons_zero]
      | succ n =>
        rw [caseFold]
        simp only [List.getD_cons_succ]
        exact ih hs1 n d d2 (by simpa using hi) (by simpa using hh)

/-- Hex rendering doubles the length. -/
theorem bytesToHexChars_length (l : List Nat) :
    (bytesToHexChars l).length = 2 * l.length := by
  induction l with
  | nil => rfl
  | cons b rest ih =>
    rw [bytesToHexChars] at ih ⊢
    simp only [List.foldr_cons, List.length_cons]
    omega

/-- Keccak-256 digests are 32 bytes. -/
theorem keccak256_length (m : List Nat) : (keccak256 m).length = 32 := by
  simp [keccak256, natLE8]

/-- Hash hex strings are 64 characters. -/
theorem hashHexOf_length (core : List Char) : (hashHexOf core).length = 64 := by
  rw [hashHexOf, bytesToHexChars_length, keccak256_length]

/-- Index access through the two head characters of the output. -/
theorem getD_cons_cons (x y : Char) (l : List Char) (n : Nat) (d : Char) :
    (x :: y :: l).getD (n + 2) d = l.getD n d := rfl

/-- Core of a constructed 0x-headed output string. -/
theorem coreOf_mk (l : List Char) :
    coreOf (String.mk ('0' :: 'x' :: l)) = l.map Char.toLower := by
  unfold coreOf
  have htl : (String.mk ('0' :: 'x' :: l)).toList = '0' :: 'x' :: l := rfl
  rw [htl, List.map_cons, List.map_cons]
  have h0 : Char.toLower '0' = '0' := by decide
  have hx : Char.toLower 'x' = 'x' := by decide
  rw [h0, hx, replace0x_cons_0x]

/-- Format analysis: the stripped lowercased core of a well-formed address
is 40 lowercase hex digits. -/
theorem coreOf_spec (a : String) (h : isEvmAddressFormat a = true) :
    (∀ c ∈ coreOf a, isLowerHexChar c = true) ∧ (coreOf a).length = 40 := by
  unfold isEvmAddressFormat at h
  by_cases hp : a.toList.take 2 = ['0', 'x'] ∨ a.toList.take 2 = ['0', 'X']
  · rw [if_pos hp] at h
    rcases hl : a.toList with _ | ⟨c1, _ | ⟨c2, rest⟩⟩
    · exfalso
      rcases hp with hp | hp <;> rw [hl] at hp <;> simp at hp
    · exfalso
      rcases hp with hp | hp <;> rw [hl] at hp <;> simp at hp
    · rw [hl] at h
      simp only [List.drop_succ_cons, List.drop_zero, List.all_eq_true,
        decide_eq_true_eq] at h
      have h12 : c1 = '0' ∧ (c2 = 'x' ∨ c2 = 'X') := by
        rcases hp with hp | hp <;> rw [hl] at hp <;> simp at hp <;> tauto
      have hcore : coreOf a = rest.map Char.toLower := by
        unfold coreOf
        rw [hl, List.map_cons, List.map_cons, h12.1]
        have h0 : Char.toLower '0' = '0' := by decide
        rcases h12.2 with h2 | h2 <;> rw [h2, h0]
        · have hx : Char.toLower 'x' = 'x' := by decide
          rw [hx, replace0x_cons_0x]
        · have hx : Char.toLower 'X' = 'x' := by decide
          rw [hx, replace0x_cons_0x]
      rw [hcore]
      constructor
      · intro c hc
        rcases List.mem_map.mp hc with ⟨c0, hc0, rfl⟩
        exact decide_eq_true (hex_toLower_mem c0 (isHexChar_mem (h.2 c0 hc0)))
      · rw [List.length_map]
        exact h.1
  · rw [if_neg hp] at h
    simp only [List.all_eq_true, decide_eq_true_eq] at h
    have hlow : ∀ c ∈ a.toList.map Char.toLower, isLowerHexChar c = true := by
      intro c hc
      rcases List.mem_map.mp hc with ⟨c0, hc0, rfl⟩
      exact decide_eq_true (hex_toLower_mem c0 (isHexChar_mem (h.2 c0 hc0)))
    have hcore : coreOf a = a.toList.map Char.toLower :=
      replace0x_all_lower_hex _ hlow
    rw [hcore]
    exact ⟨hlow, by rw [List.length_map]; exact h.1⟩

set_option maxRecDepth 10000 in
/-- CLAIM C9.  On every 40-hex-character address (with or without the 0x
head, any casing) `checksumEvmAddress` is idempotent, and character i of
its output (past the 0x head) is the uppercased i-th core character exactly
when the i-th hex digit of the Keccak-256 hash of the lowercase stripped
address is at least 8; the two published EIP-55 example vectors and the
all-zero address come out exactly as published. -/
theorem checksum_eip55 :
    (∀ a : String, isEvmAddressFormat a = true →
      checksumEvmAddress (checksumEvmAddress a) = checksumEvmAddress a ∧
      (∀ i : Nat, i < 40 →
        (checksumEvmAddress a).toList.getD (i + 2) '0' =
          (if 8 ≤ hexVal ((hashHexOf (coreOf a)).getD i '0')
           then ((coreOf a).getD i '0').toUpper
           else (coreOf a).getD i '0'))) ∧
    checksumEvmAddress "0x5aaeb6053f3e94c9b9a09f33669435e7ef1beaed" =
      "0x5aAeb6053F3E94C9b9A09f33669435E7Ef1BeAed" ∧
    checksumEvmAddress "0xfb6916095ca1df60bb79ce92ce3ea74c37c5d359" =
      "0xfB6916095ca1df60bB79Ce92cE3Ea74c37c5d359" ∧
    checksumEvmAddress "0x0000000000000000000000000000000000000000" =
      "0x0000000000000000000000000000000000000000" := by
  refine ⟨?_, by decide, by decide, by decide⟩
  intro a ha
  obtain ⟨hlow, hlen⟩ := coreOf_spec a ha
  constructor
  · have hcore2 : coreOf (checksumEvmAddress a) = coreOf a := by
      rw [checksum_unfold a, coreOf_mk]
      exact caseFold_toLower _ _ hlow
    rw [checksum_unfold (checksumEvmAddress a), hcore2, checksum_unfold a]
  · intro i hi
    rw [checksum_unfold a]
    have htl : (String.mk ('0' :: 'x' :: caseFold (coreOf a) (hashHexOf (coreOf a)))).toList =
        '0' :: 'x' :: caseFold (coreOf a) (hashHexOf (coreOf a)) := rfl
    rw [htl, getD_cons_cons]
    exact caseFold_getD (coreOf a) (hashHexOf (coreOf a)) i '0' '0'
      (by rw [hlen]; exact hi) (by rw [hashHexOf_length]; omega)

/-- Witness for C9: idempotence and the casing rule instantiated at the
first published EIP-55 vector. -/
theorem checksum_eip55_witness :
    checksumEvmAddress (checksumEvmAddress "0x5aaeb6053f3e94c9b9a09f33669435e7ef1beaed") =
      checksumEvmAddress "0x5aaeb6053f3e94c9b9a09f33669435e7ef1beaed" :=
  (checksum_eip55.1 "0x5aaeb6053f3e94c9b9a09f33669435e7ef1beaed" (by decide)).1
